import Mathlib

/-!
# Verification of the RISC-V Debug Module communication engine

Shallow embedding of `src/probe-rs/src/architecture/riscv/communication_interface.rs`
(the host side of the RISC-V External Debug Support Specification v0.13.2).

The Debug Transport Module (DTM) is modelled as an oracle: a list of 32-bit
responses, one consumed per DMI access.  Every interface operation is embedded
as a function from interface state and oracle to
`Option (Except RiscvError α × state × remaining-oracle × trace)`,
where the trace is the list of DMI operations issued (in order), and `none`
models a Rust panic / process abort.  The wall-clock 5-second timeout of the
`abstractcs.busy` polling loop is modelled as a fixed fuel bound (a positive
number of polls before the loop gives up with `Timeout`).

Register bit layouts defined in `communication_interface.rs` itself
(`Sbcs`, `Abstractauto`, `AccessRegisterCommand`) are translated from that
source.  The layouts of `dmstatus`, `dmcontrol`, `abstractcs` and `hartinfo`
and the instruction assembler live in repository files not included under
`src/`; those are modelled from the spec (see the individual doc comments).
-/

set_option maxRecDepth 10000

namespace Riscv

/-- DMI operation kind (`DmiOperation` in the DTM contract). -/
inductive DmiKind where
  | read
  | write
  | noop
deriving DecidableEq, Repr

/-- One DMI access as issued to the DTM: operation kind, DM register address,
and (for writes) the value sent. -/
structure DmiEvent where
  kind : DmiKind
  addr : Nat
  value : Nat
deriving DecidableEq, Repr

/-- The DTM oracle: responses to successive DMI accesses.  Each access consumes
one entry; an exhausted oracle responds 0. -/
abbrev Dev := List Nat

/-- Errors of the RISC-V communication engine (`RiscvError` in the source).
Payloads irrelevant to the claims are reduced to `Nat` codes. -/
inductive AbstractCommandErrorKind where
  | None
  | Busy
  | NotSupported
  | Exception
  | HaltResume
  | Bus
  | Reserved
  | Other
deriving DecidableEq, Repr

/-- List of all debug module versions (`DebugModuleVersion` in the source). -/
inductive DebugModuleVersion where
  | NoModule
  | Version0_11
  | Version0_13
  | NonConforming
  | Unknown (raw : Nat)
deriving DecidableEq, Repr

/-- `impl From<u8> for DebugModuleVersion` from the source:
0 → NoModule, 1 → Version0_11, 2 → Version0_13, 15 → NonConforming,
other → Unknown(other). -/
def DebugModuleVersion.fromRaw (raw : Nat) : DebugModuleVersion :=
  if raw = 0 then .NoModule
  else if raw = 1 then .Version0_11
  else if raw = 2 then .Version0_13
  else if raw = 15 then .NonConforming
  else .Unknown raw

/-- `DebugProbeError`: only the `ArchitectureSpecific` wrapping of an abstract
command error is ever constructed by the embedded code
(`perform_memory_write_multiple_progbuf`). -/
inductive DebugProbeErrorModel where
  | ArchitectureSpecific (kind : AbstractCommandErrorKind)
deriving DecidableEq, Repr

/-- The error enum `RiscvError` from the source. -/
inductive RiscvError where
  | DmiTransfer (status : Nat)
  | DebugProbe (inner : DebugProbeErrorModel)
  | Timeout
  | AbstractCommand (kind : AbstractCommandErrorKind)
  | RequestNotAcknowledged
  | UnsupportedDebugTransportModuleVersion (v : Nat)
  | UnsupportedDebugModuleVersion (v : DebugModuleVersion)
  | UnsupportedProgramBufferRegister (idx : Nat)
  | ProgramBufferTooSmall
  | UnsupportedBusAccessWidth (width : Nat)
  | SystemBusAccess
  | UnexpectedTriggerType (t : Nat)
deriving DecidableEq, Repr

/-- `AbstractCommandErrorKind::parse` from the source: values 0..7 decode to
the corresponding kind; any larger value panics
("cmderr is a 3 bit value, values higher than 7 should not occur."),
modelled as `none`. -/
def AbstractCommandErrorKind.parse (value : Nat) : Option AbstractCommandErrorKind :=
  if value = 0 then some .None
  else if value = 1 then some .Busy
  else if value = 2 then some .NotSupported
  else if value = 3 then some .Exception
  else if value = 4 then some .HaltResume
  else if value = 5 then some .Bus
  else if value = 6 then some .Reserved
  else if value = 7 then some .Other
  else none

/-- Access width for bus access (`RiscvBusAccess` in the source). -/
inductive RiscvBusAccess where
  | A8
  | A16
  | A32
  | A64
  | A128
deriving DecidableEq, Repr

/-- The numeric discriminant of `RiscvBusAccess` (`value as u8/u32`). -/
def RiscvBusAccess.code : RiscvBusAccess → Nat
  | .A8 => 0
  | .A16 => 1
  | .A32 => 2
  | .A64 => 3
  | .A128 => 4

/-- `RiscvBusAccess::byte_width` from the source. -/
def RiscvBusAccess.byte_width : RiscvBusAccess → Nat
  | .A8 => 1
  | .A16 => 2
  | .A32 => 4
  | .A64 => 8
  | .A128 => 16

/-- Memory access method (`MemoryAccessMethod` in the source). -/
inductive MemoryAccessMethod where
  | ProgramBuffer
  | AbstractCommand
  | SystemBus
deriving DecidableEq, Repr

/-- Association list with Nat keys, used in place of the source's `HashMap`s
(`memory_access_info` keys are encoded through `RiscvBusAccess.code`,
`abstract_cmd_register_info` keys are `RegisterId` values). -/
def lookupA : List (Nat × Nat) → Nat → Option Nat
  | [], _ => none
  | (k', v) :: rest, k => if k' = k then some v else lookupA rest k

/-- Replace the value under `k`, or insert `(k, v)` if absent (the effect of
the source's `HashMap::entry(k).or_insert(..)` followed by a mutation). -/
def updateA : List (Nat × Nat) → Nat → Nat → List (Nat × Nat)
  | [], k, v => [(k, v)]
  | (k', v') :: rest, k, v =>
      if k' = k then (k, v) :: rest else (k', v') :: updateA rest k v

/-- `CoreRegisterAbstractCmdSupport::READ` bit. -/
def SUPPORT_READ : Nat := 1

/-- `CoreRegisterAbstractCmdSupport::WRITE` bit. -/
def SUPPORT_WRITE : Nat := 2

/-- `CoreRegisterAbstractCmdSupport::BOTH`. -/
def SUPPORT_BOTH : Nat := 3

/-- `CoreRegisterAbstractCmdSupport::supports`: `self.0 & o.0 == o.0`. -/
def supportsBits (s o : Nat) : Bool := s &&& o = o

/-- `CoreRegisterAbstractCmdSupport::unset`: `self.0 &= !(o.0)` on a `u8`. -/
def unsetBits (s o : Nat) : Nat := s &&& (255 ^^^ o)

/-- The interface state (`RiscvCommunicationInterfaceState` in the source).
The `[u32; 16]` program buffer cache is a list (length 16 in every state the
Rust code can produce); the two `HashMap`s are association lists. -/
structure State where
  debug_version : DebugModuleVersion
  progbuf_size : Nat
  progbuf_cache : List Nat
  implicit_ebreak : Bool
  data_register_count : Nat
  nscratch : Nat
  supports_autoexec : Bool
  confstrptr : Option Nat
  hartsellen : Nat
  num_harts : Nat
  memory_access_info : List (Nat × Nat)
  abstract_cmd_register_info : List (Nat × Nat)
deriving DecidableEq, Repr

/-- Encoding of `MemoryAccessMethod` values inside `memory_access_info`. -/
def MemoryAccessMethod.code : MemoryAccessMethod → Nat
  | .ProgramBuffer => 0
  | .AbstractCommand => 1
  | .SystemBus => 2

/-- Decoding for `memory_access_info` values (total on the codes used). -/
def methodOfCode (n : Nat) : MemoryAccessMethod :=
  if n = 2 then .SystemBus else if n = 1 then .AbstractCommand else .ProgramBuffer

/-- `RiscvCommunicationInterfaceState::new()` from the source. -/
def State.new : State where
  debug_version := .NonConforming
  progbuf_size := 0
  progbuf_cache := List.replicate 16 0
  implicit_ebreak := false
  data_register_count := 1
  nscratch := 0
  supports_autoexec := false
  confstrptr := none
  hartsellen := 20
  num_harts := 1
  memory_access_info := []
  abstract_cmd_register_info := []

/-- `RiscvCommunicationInterfaceState::memory_access_method`: look up the
method for a width, inserting the default `ProgramBuffer` if absent. -/
def State.memory_access_method (st : State) (w : RiscvBusAccess) :
    MemoryAccessMethod × State :=
  match lookupA st.memory_access_info w.code with
  | some m => (methodOfCode m, st)
  | none =>
      (.ProgramBuffer,
       { st with memory_access_info :=
           updateA st.memory_access_info w.code MemoryAccessMethod.ProgramBuffer.code })

/-- Result of an interface operation: `none` models a Rust panic; otherwise
the `Except` outcome together with the state, the remaining oracle, and the
trace of DMI accesses issued (in order). -/
abbrev RvResult (α : Type) := Option (Except RiscvError α × State × Dev × List DmiEvent)

/-- One DMI access (`Dtm::dmi_register_access_with_timeout`): consumes one
oracle response (truncated to 32 bits) and records the access in the trace. -/
def dmiAccess (dev : Dev) (addr value : Nat) (k : DmiKind) :
    Nat × Dev × List DmiEvent :=
  (dev.headD 0 % 2 ^ 32, dev.tail, [⟨k, addr, value⟩])

/-- Sequencing of interface steps, mirroring Rust's `?` operator: errors and
panics propagate, traces concatenate, state and oracle thread through. -/
def andThen (r : RvResult α) (f : α → State → Dev → RvResult β) : RvResult β :=
  match r with
  | none => none
  | some (.error e, st, dev, tr) => some (.error e, st, dev, tr)
  | some (.ok a, st, dev, tr) =>
      match f a st dev with
      | none => none
      | some (res, st', dev', tr') => some (res, st', dev', tr ++ tr')

/-- A step that issues no DMI traffic and returns a value. -/
def rvPure (a : α) (st : State) (dev : Dev) : RvResult α :=
  some (.ok a, st, dev, [])

/-- A step that fails with `e`, issuing no DMI traffic. -/
def rvErr (e : RiscvError) (st : State) (dev : Dev) : RvResult α :=
  some (.error e, st, dev, [])

/-- `RiscvCommunicationInterface::read_dm_register_untyped`: a read request
with the register address followed by a NoOp collecting the response. -/
def read_dm_register_untyped (addr : Nat) (st : State) (dev : Dev) : RvResult Nat :=
  let (_, dev1, t1) := dmiAccess dev addr 0 .read
  let (v, dev2, t2) := dmiAccess dev1 0 0 .noop
  some (.ok v, st, dev2, t1 ++ t2)

/-- `RiscvCommunicationInterface::write_dm_register_untyped`: a single DMI
write. -/
def write_dm_register_untyped (addr value : Nat) (st : State) (dev : Dev) :
    RvResult Unit :=
  let (_, dev1, t1) := dmiAccess dev addr value .write
  some (.ok (), st, dev1, t1)

/-! ## DM register addresses and bit fields

Addresses are those of the `DebugRegister` impls and `data_register!`
invocations in the source (`dmcontrol=0x10`, `dmstatus=0x11`, `hartinfo=0x12`,
`abstractcs=0x16`, `command=0x17`, `abstractauto=0x18`, `confstrptr0..3 =
0x19..0x1c`, `data0=0x04`, `progbuf0..15 = 0x20..0x2f`, `sbcs=0x38`,
`sbaddress0=0x39`, `sbdata0..3 = 0x3c..0x3f`). -/

def ADDR_DMCONTROL : Nat := 0x10
def ADDR_DMSTATUS : Nat := 0x11
def ADDR_HARTINFO : Nat := 0x12
def ADDR_ABSTRACTCS : Nat := 0x16
def ADDR_COMMAND : Nat := 0x17
def ADDR_ABSTRACTAUTO : Nat := 0x18
def ADDR_DATA0 : Nat := 0x04
def ADDR_PROGBUF0 : Nat := 0x20
def ADDR_SBCS : Nat := 0x38
def ADDR_SBADDRESS0 : Nat := 0x39
def ADDR_SBDATA0 : Nat := 0x3c

/-- Extract the bit field `[hi:lo]` of a 32-bit register value. -/
def field (v hi lo : Nat) : Nat := (v >>> lo) % 2 ^ (hi - lo + 1)

/-- Test a single bit of a register value. -/
def bit (v i : Nat) : Bool := v.testBit i

/-! Modelled from the spec: the `Dmstatus` bitfield lives in a repository file
not under `src/` (`architecture/riscv/mod.rs`); per the spec §3 it has
`version[3:0]`, `confstrptrvalid`, `impebreak`, `anynonexistent`, with the
standard v0.13 bit positions (`confstrptrvalid` = bit 4, `impebreak` = bit 22,
`anynonexistent` = bit 14). -/

def dmstatus.version (v : Nat) : Nat := field v 3 0
def dmstatus.confstrptrvalid (v : Nat) : Bool := bit v 4
def dmstatus.impebreak (v : Nat) : Bool := bit v 22
def dmstatus.anynonexistent (v : Nat) : Bool := bit v 14

/-! Modelled from the spec: the `Dmcontrol` bitfield lives in a repository
file not under `src/`; per the spec §3 it has `dmactive` (bit 0), `haltreq`
(bit 31), `resumereq` (bit 30), `ackhavereset` (bit 28) and a 20-bit
`hartsel` split into `hartsello` (bits 25:16, low 10 bits) and `hartselhi`
(bits 15:6, high 10 bits). -/

/-- `Dmcontrol::set_hartsel`: place the low 10 bits of `v` in bits 25:16 and
the next 10 bits in bits 15:6, clearing any previous hartsel bits. -/
def dmcontrol.withHartsel (reg v : Nat) : Nat :=
  (reg &&& 0xfc00003f) ||| ((v % 2 ^ 10) <<< 16) ||| (((v >>> 10) % 2 ^ 10) <<< 6)

/-- `Dmcontrol::hartsel`: read back the 20-bit hart selector. -/
def dmcontrol.hartsel (v : Nat) : Nat :=
  ((field v 15 6) <<< 10) ||| field v 25 16

/-- `Dmcontrol` value with only `dmactive` set (bit 0). -/
def dmcontrol.DMACTIVE : Nat := 1

/-! Modelled from the spec: the `Abstractcs` bitfield lives in a repository
file not under `src/`; per the spec §3: `progbufsize[28:24]`, `busy[12]`,
`cmderr[10:8]` (W1C with mask 0x7), `datacount[3:0]`. -/

def abstractcs.progbufsize (v : Nat) : Nat := field v 28 24
def abstractcs.busy (v : Nat) : Bool := bit v 12
def abstractcs.cmderr (v : Nat) : Nat := field v 10 8
def abstractcs.datacount (v : Nat) : Nat := field v 3 0

/-- `Abstractcs(0)` with `set_cmderr(0x7)`: the W1C clear value. -/
def abstractcs.CLEAR_CMDERR : Nat := 0x7 <<< 8

/-! Modelled from the spec: the `Hartinfo` bitfield lives in a repository file
not under `src/`; `nscratch` occupies bits 23:20 in the v0.13 layout. -/

def hartinfo.nscratch (v : Nat) : Nat := field v 23 20

/-! `Sbcs` bit fields, translated from the `bitfield!` block in the source:
`sbversion[31:29]`, `sbreadonaddr[20]`, `sbaccess[19:17]`,
`sbautoincrement[16]`, `sbreadondata[15]`, `sberror[14:12]`,
`sbaccess128[4]`, `sbaccess64[3]`, `sbaccess32[2]`, `sbaccess16[1]`,
`sbaccess8[0]`. -/

def sbcs.sbversion (v : Nat) : Nat := field v 31 29
def sbcs.sberror (v : Nat) : Nat := field v 14 12
def sbcs.sbaccess128 (v : Nat) : Bool := bit v 4
def sbcs.sbaccess64 (v : Nat) : Bool := bit v 3
def sbcs.sbaccess32 (v : Nat) : Bool := bit v 2
def sbcs.sbaccess16 (v : Nat) : Bool := bit v 1
def sbcs.sbaccess8 (v : Nat) : Bool := bit v 0

/-- Build an `Sbcs` value from `Sbcs(0)` with the setters used by the memory
engines: `sbaccess[19:17]`, `sbreadonaddr[20]`, `sbreadondata[15]`,
`sbautoincrement[16]`. -/
def sbcs.build (sbaccess : Nat) (readonaddr readondata autoincrement : Bool) : Nat :=
  ((sbaccess % 2 ^ 3) <<< 17)
    ||| (if readonaddr then 1 <<< 20 else 0)
    ||| (if readondata then 1 <<< 15 else 0)
    ||| (if autoincrement then 1 <<< 16 else 0)

/-! `Abstractauto` bit fields, translated from the `bitfield!` block in the
source: `autoexecprogbuf[31:16]`, `autoexecdata[11:0]`. -/

/-- `Abstractauto(0)` with `set_autoexecprogbuf(p)` and `set_autoexecdata(d)`
(each setter masks to its field width). -/
def abstractauto.build (p d : Nat) : Nat :=
  ((p % 2 ^ 16) <<< 16) ||| (d % 2 ^ 12)

/-! `AccessRegisterCommand` (`command` register value), translated from the
`bitfield!` block in the source: `cmd_type[31:24]`, `aarsize[22:20]`,
`aarpostincrement[19]`, `postexec[18]`, `transfer[17]`, `write[16]`,
`regno[15:0]`. -/

/-- Build an `AccessRegisterCommand` from `AccessRegisterCommand(0)` with the
setters used in the source. -/
def accessRegisterCommand (aarsize : Nat) (postexec transfer write : Bool)
    (regno : Nat) : Nat :=
  ((aarsize % 2 ^ 3) <<< 20)
    ||| (if postexec then 1 <<< 18 else 0)
    ||| (if transfer then 1 <<< 17 else 0)
    ||| (if write then 1 <<< 16 else 0)
    ||| (regno % 2 ^ 16)

/-- `register::S0` has abstract register id 0x1008 ("register s0, ie. 0x1008"
in the source). -/
def REG_S0 : Nat := 0x1008

/-- `register::S1` has abstract register id 0x1009 ("register s1, ie. 0x1009"
in the source). -/
def REG_S1 : Nat := 0x1009

/-! Modelled from the spec: the `assembly` module lives in a repository file
not under `src/`; per spec §4.10: `lw/lh/lb` use the RISC-V LOAD opcode with
`funct3 ∈ {0=LB, 1=LH, 2=LW}`, `sw/sh/sb` the STORE opcode with split
immediate, `addi` OP-IMM, `csrr(rd, csr) ≡ csrrs(rd, csr, x0)`,
`csrw(csr, rs) ≡ csrrw(x0, csr, rs)`, `ebreak = 0x00100073`. -/

/-- `assembly::lw(offset, rs1, width, rd)`. -/
def assembly.lw (offset rs1 width rd : Nat) : Nat :=
  ((offset % 2 ^ 12) <<< 20) ||| ((rs1 % 2 ^ 5) <<< 15) ||| ((width % 2 ^ 3) <<< 12)
    ||| ((rd % 2 ^ 5) <<< 7) ||| 0x03

/-- `assembly::sw(offset, rs1, width, rs2)`. -/
def assembly.sw (offset rs1 width rs2 : Nat) : Nat :=
  (((offset >>> 5) % 2 ^ 7) <<< 25) ||| ((rs2 % 2 ^ 5) <<< 20) ||| ((rs1 % 2 ^ 5) <<< 15)
    ||| ((width % 2 ^ 3) <<< 12) ||| ((offset % 2 ^ 5) <<< 7) ||| 0x23

/-- `assembly::addi(rd, rs1, imm12)`. -/
def assembly.addi (rd rs1 imm : Nat) : Nat :=
  ((imm % 2 ^ 12) <<< 20) ||| ((rs1 % 2 ^ 5) <<< 15) ||| ((rd % 2 ^ 5) <<< 7) ||| 0x13

/-- `assembly::csrr(rd, csr)` = `csrrs rd, csr, x0` (funct3 = 2). -/
def assembly.csrr (rd csr : Nat) : Nat :=
  ((csr % 2 ^ 12) <<< 20) ||| (2 <<< 12) ||| ((rd % 2 ^ 5) <<< 7) ||| 0x73

/-- `assembly::csrw(csr, rs)` = `csrrw x0, csr, rs` (funct3 = 1). -/
def assembly.csrw (csr rs : Nat) : Nat :=
  ((csr % 2 ^ 12) <<< 20) ||| ((rs % 2 ^ 5) <<< 15) ||| (1 <<< 12) ||| 0x73

/-- `assembly::EBREAK = 0x00100073` (spec §4.10). -/
def assembly.EBREAK : Nat := 0x00100073

/-- `from_register_value` of the `RiscvValue32` impls: truncate a 32-bit
register value to the access width (`value as u8` / `as u16` / identity). -/
def truncW (w : RiscvBusAccess) (v : Nat) : Nat := v % 2 ^ (8 * w.byte_width)

/-! ## Program buffer management -/

/-- `RiscvCommunicationInterface::write_progbuf`: dispatch on the buffer
index; indices 0..15 write `Progbuf0..Progbuf15`, anything larger fails with
`UnsupportedProgramBufferRegister`. -/
def write_progbuf (index value : Nat) (st : State) (dev : Dev) : RvResult Unit :=
  if index ≤ 15 then write_dm_register_untyped (ADDR_PROGBUF0 + index) value st dev
  else rvErr (.UnsupportedProgramBufferRegister index) st dev

/-- The `for (index, word) in data.iter().enumerate()` loop of
`setup_program_buffer`. -/
def write_progbuf_list (data : List Nat) (index : Nat) (st : State) (dev : Dev) :
    RvResult Unit :=
  match data with
  | [] => rvPure () st dev
  | w :: rest =>
      andThen (write_progbuf index w st dev) fun _ st dev =>
        write_progbuf_list rest (index + 1) st dev

/-- `RiscvCommunicationInterface::setup_program_buffer`.  The slice borrow
`&self.state.progbuf_cache[..data.len()]` panics (modelled `none`) when
`data.len() > 16`. -/
def setup_program_buffer (data : List Nat) (st : State) (dev : Dev) : RvResult Unit :=
  let required_len := if st.implicit_ebreak then data.length else data.length + 1
  if required_len > st.progbuf_size then rvErr .ProgramBufferTooSmall st dev
  else if 16 < data.length then none
  else if data = st.progbuf_cache.take data.length then rvPure () st dev
  else
    andThen (write_progbuf_list data 0 st dev) fun _ st dev =>
    andThen (if ¬st.implicit_ebreak ∨ data.length < st.progbuf_size then
               write_progbuf data.length assembly.EBREAK st dev
             else rvPure () st dev) fun _ st dev =>
      rvPure () { st with progbuf_cache := data ++ st.progbuf_cache.drop data.length }
        dev

/-! ## Abstract command execution -/

/-- The `dmcontrol` precondition value of `execute_abstract_command`:
`haltreq=0, resumereq=0, ackhavereset=1 (bit 28), dmactive=1 (bit 0)`. -/
def dmcontrol.ABSTRACTCMD_PRECOND : Nat := (1 <<< 28) ||| 1

/-- Fuel bound standing in for the 5-second wall-clock timeout of the
`abstractcs.busy` polling loop: the number of polls attempted before the
loop gives up with `Timeout`. -/
def POLL_FUEL : Nat := 16

/-- The `loop { read abstractcs; if !busy break; if elapsed > timeout return
Timeout }` polling loop of `execute_abstract_command`; returns the final
`abstractcs` value. -/
def execPoll : Nat → State → Dev → RvResult Nat
  | 0, st, dev => rvErr .Timeout st dev
  | fuel + 1, st, dev =>
      andThen (read_dm_register_untyped ADDR_ABSTRACTCS st dev) fun a st dev =>
        if abstractcs.busy a then execPoll fuel st dev else rvPure a st dev

/-- The final `cmderr` check of `execute_abstract_command` (the same inline
pattern recurs in the progbuf memory engines): nonzero `cmderr` fails with
`AbstractCommand(parse(cmderr))`, where `parse` of a value above 7 panics. -/
def checkCmderr (a : Nat) (st : State) (dev : Dev) : RvResult Unit :=
  if abstractcs.cmderr a ≠ 0 then
    match AbstractCommandErrorKind.parse (abstractcs.cmderr a) with
    | some k => rvErr (.AbstractCommand k) st dev
    | none => none
  else rvPure () st dev

/-- `RiscvCommunicationInterface::execute_abstract_command`. -/
def execute_abstract_command (command : Nat) (st : State) (dev : Dev) : RvResult Unit :=
  andThen (write_dm_register_untyped ADDR_DMCONTROL dmcontrol.ABSTRACTCMD_PRECOND st dev)
    fun _ st dev =>
  andThen (read_dm_register_untyped ADDR_ABSTRACTCS st dev) fun aPrev st dev =>
  andThen (if abstractcs.cmderr aPrev ≠ 0 then
             write_dm_register_untyped ADDR_ABSTRACTCS abstractcs.CLEAR_CMDERR st dev
           else rvPure () st dev) fun _ st dev =>
  andThen (write_dm_register_untyped ADDR_COMMAND command st dev) fun _ st dev =>
  andThen (execPoll POLL_FUEL st dev) checkCmderr

/-- `RiscvCommunicationInterface::check_abstract_cmd_register_support`:
a missing map entry means the register is assumed accessible. -/
def check_abstract_cmd_register_support (st : State) (regno rw : Nat) : Bool :=
  match lookupA st.abstract_cmd_register_info regno with
  | some s => supportsBits s rw
  | none => true

/-- `RiscvCommunicationInterface::set_abstract_cmd_register_unsupported`:
`entry(regno).or_insert(BOTH)` followed by `unset(rw)`. -/
def set_abstract_cmd_register_unsupported (st : State) (regno rw : Nat) : State :=
  let cur := (lookupA st.abstract_cmd_register_info regno).getD SUPPORT_BOTH
  { st with abstract_cmd_register_info :=
      updateA st.abstract_cmd_register_info regno (unsetBits cur rw) }

/-- The `command` value of `abstract_cmd_register_read`: `cmd_type=0,
transfer=1, write=0, aarsize=A32, regno`. -/
def readRegCmd (regno : Nat) : Nat :=
  accessRegisterCommand RiscvBusAccess.A32.code false true false regno

/-- The `command` value of `abstract_cmd_register_write::<u32>`: `cmd_type=0,
transfer=1, write=1, aarsize=A32, regno`. -/
def writeRegCmd (regno : Nat) : Nat :=
  accessRegisterCommand RiscvBusAccess.A32.code false true true regno

/-- The `match self.execute_abstract_command(..)` expression of
`abstract_cmd_register_read`: on success read `data0`; on
`AbstractCommand(NotSupported)` record the register as read-unsupported and
re-raise; other errors propagate. -/
def acrr_post (regno : Nat) (x : RvResult Unit) : RvResult Nat :=
  match x with
  | none => none
  | some (.ok _, st1, dev1, tr) =>
      andThen (some (.ok (), st1, dev1, tr)) fun _ st dev =>
        read_dm_register_untyped ADDR_DATA0 st dev
  | some (.error e, st1, dev1, tr) =>
      if e = .AbstractCommand .NotSupported then
        some (.error e,
              set_abstract_cmd_register_unsupported st1 regno SUPPORT_READ, dev1, tr)
      else some (.error e, st1, dev1, tr)

/-- `RiscvCommunicationInterface::abstract_cmd_register_read`:
short-circuits with `NotSupported` when the capability map says the register
cannot be read; records `NotSupported` outcomes in the map. -/
def abstract_cmd_register_read (regno : Nat) (st : State) (dev : Dev) : RvResult Nat :=
  if ¬check_abstract_cmd_register_support st regno SUPPORT_READ then
    rvErr (.AbstractCommand .NotSupported) st dev
  else
    acrr_post regno (execute_abstract_command (readRegCmd regno) st dev)

/-- The `match self.execute_abstract_command(..)` expression of
`abstract_cmd_register_write`: on `AbstractCommand(NotSupported)` record the
register as write-unsupported and re-raise; other errors propagate. -/
def acrw_post (regno : Nat) (x : RvResult Unit) : RvResult Unit :=
  match x with
  | none => none
  | some (.ok _, st1, dev1, tr) => some (.ok (), st1, dev1, tr)
  | some (.error e, st1, dev1, tr) =>
      if e = .AbstractCommand .NotSupported then
        some (.error e,
              set_abstract_cmd_register_unsupported st1 regno SUPPORT_WRITE, dev1, tr)
      else some (.error e, st1, dev1, tr)

/-- `RiscvCommunicationInterface::abstract_cmd_register_write::<u32>`:
short-circuits with `NotSupported` when the capability map says the register
cannot be written; places the value in `data0` before issuing the command;
records `NotSupported` outcomes in the map. -/
def abstract_cmd_register_write (regno value : Nat) (st : State) (dev : Dev) :
    RvResult Unit :=
  if ¬check_abstract_cmd_register_support st regno SUPPORT_WRITE then
    rvErr (.AbstractCommand .NotSupported) st dev
  else
    andThen (write_dm_register_untyped ADDR_DATA0 value st dev) fun _ st dev =>
      acrw_post regno (execute_abstract_command (writeRegCmd regno) st dev)

/-! ## Memory access — program buffer engines -/

/-- The "write s0/s1, then execute program buffer" command used by the
progbuf memory engines: `cmd_type=0, transfer=1, write=1, aarsize=A32,
postexec=1, regno`. -/
def postexecWriteCmd (regno : Nat) : Nat :=
  accessRegisterCommand RiscvBusAccess.A32.code true true true regno

/-- The "read s1, then execute program buffer" command of the multi-word
read loop: `cmd_type=0, transfer=1, write=0, aarsize=A32, postexec=1,
regno=s1`. -/
def postexecReadS1Cmd : Nat :=
  accessRegisterCommand RiscvBusAccess.A32.code true true false REG_S1

/-- `RiscvCommunicationInterface::perform_memory_read_progbuf` for a width
`w` of at most 32 bits. -/
def perform_memory_read_progbuf (w : RiscvBusAccess) (address : Nat)
    (st : State) (dev : Dev) : RvResult Nat :=
  andThen (abstract_cmd_register_read REG_S0 st dev) fun s0 st dev =>
  andThen (setup_program_buffer [assembly.lw 0 8 w.code 8] st dev) fun _ st dev =>
  andThen (write_dm_register_untyped ADDR_DATA0 address st dev) fun _ st dev =>
  andThen (write_dm_register_untyped ADDR_COMMAND (postexecWriteCmd REG_S0) st dev)
    fun _ st dev =>
  andThen (read_dm_register_untyped ADDR_ABSTRACTCS st dev) fun status st dev =>
  andThen (checkCmderr status st dev) fun _ st dev =>
  andThen (abstract_cmd_register_read REG_S0 st dev) fun value st dev =>
  andThen (abstract_cmd_register_write REG_S0 s0 st dev) fun _ st dev =>
  rvPure (truncW w value) st dev

/-- The `for word in &mut data[..data_len - 1]` loop of
`perform_memory_read_multiple_progbuf`: issue the s1-read-with-postexec
command, then read `data0`. -/
def progbuf_read_loop (w : RiscvBusAccess) :
    Nat → State → Dev → RvResult (List Nat)
  | 0, st, dev => rvPure [] st dev
  | count + 1, st, dev =>
      andThen (write_dm_register_untyped ADDR_COMMAND postexecReadS1Cmd st dev)
        fun _ st dev =>
      andThen (read_dm_register_untyped ADDR_DATA0 st dev) fun v st dev =>
      andThen (progbuf_read_loop w count st dev) fun vs st dev =>
      rvPure (truncW w v :: vs) st dev

/-- `RiscvCommunicationInterface::perform_memory_read_multiple_progbuf`.
The buffer is modelled by its length `count`; the values read are returned.
With `count = 0` the slice `&mut data[..data_len - 1]` panics (`none`). -/
def perform_memory_read_multiple_progbuf (w : RiscvBusAccess) (address count : Nat)
    (st : State) (dev : Dev) : RvResult (List Nat) :=
  andThen (abstract_cmd_register_read REG_S0 st dev) fun s0 st dev =>
  andThen (abstract_cmd_register_read REG_S1 st dev) fun s1 st dev =>
  andThen (setup_program_buffer
      [assembly.lw 0 8 w.code 9, assembly.addi 8 8 w.byte_width] st dev)
    fun _ st dev =>
  andThen (write_dm_register_untyped ADDR_DATA0 address st dev) fun _ st dev =>
  andThen (write_dm_register_untyped ADDR_COMMAND (postexecWriteCmd REG_S0) st dev)
    fun _ st dev =>
  if count = 0 then none
  else
  andThen (progbuf_read_loop w (count - 1) st dev) fun vs st dev =>
  andThen (abstract_cmd_register_read REG_S1 st dev) fun last st dev =>
  andThen (read_dm_register_untyped ADDR_ABSTRACTCS st dev) fun status st dev =>
  andThen (checkCmderr status st dev) fun _ st dev =>
  andThen (abstract_cmd_register_write REG_S0 s0 st dev) fun _ st dev =>
  andThen (abstract_cmd_register_write REG_S1 s1 st dev) fun _ st dev =>
  rvPure (vs ++ [truncW w last]) st dev

/-- `RiscvCommunicationInterface::perform_memory_write_progbuf`. -/
def perform_memory_write_progbuf (w : RiscvBusAccess) (address data : Nat)
    (st : State) (dev : Dev) : RvResult Unit :=
  andThen (abstract_cmd_register_read REG_S0 st dev) fun s0 st dev =>
  andThen (abstract_cmd_register_read REG_S1 st dev) fun s1 st dev =>
  andThen (setup_program_buffer [assembly.sw 0 8 w.code 9] st dev) fun _ st dev =>
  andThen (abstract_cmd_register_write REG_S0 address st dev) fun _ st dev =>
  andThen (write_dm_register_untyped ADDR_DATA0 data st dev) fun _ st dev =>
  andThen (write_dm_register_untyped ADDR_COMMAND (postexecWriteCmd REG_S1) st dev)
    fun _ st dev =>
  andThen (read_dm_register_untyped ADDR_ABSTRACTCS st dev) fun status st dev =>
  andThen (checkCmderr status st dev) fun _ st dev =>
  andThen (abstract_cmd_register_write REG_S0 s0 st dev) fun _ st dev =>
  abstract_cmd_register_write REG_S1 s1 st dev

/-- The `for value in data` loop of
`perform_memory_write_multiple_progbuf`: write `data0`, then issue the
s1-write-with-postexec command. -/
def progbuf_write_loop : List Nat → State → Dev → RvResult Unit
  | [], st, dev => rvPure () st dev
  | v :: rest, st, dev =>
      andThen (write_dm_register_untyped ADDR_DATA0 v st dev) fun _ st dev =>
      andThen (write_dm_register_untyped ADDR_COMMAND (postexecWriteCmd REG_S1) st dev)
        fun _ st dev =>
      progbuf_write_loop rest st dev

/-- The final `cmderr` check of `perform_memory_write_multiple_progbuf`; its
error is wrapped through `DebugProbeError::ArchitectureSpecific` before being
converted back into a `RiscvError` (`DebugProbe` variant). -/
def checkCmderrWrapped (a : Nat) (st : State) (dev : Dev) : RvResult Unit :=
  if abstractcs.cmderr a ≠ 0 then
    match AbstractCommandErrorKind.parse (abstractcs.cmderr a) with
    | some k => rvErr (.DebugProbe (.ArchitectureSpecific k)) st dev
    | none => none
  else rvPure () st dev

/-- `RiscvCommunicationInterface::perform_memory_write_multiple_progbuf`. -/
def perform_memory_write_multiple_progbuf (w : RiscvBusAccess) (address : Nat)
    (data : List Nat) (st : State) (dev : Dev) : RvResult Unit :=
  andThen (abstract_cmd_register_read REG_S0 st dev) fun s0 st dev =>
  andThen (abstract_cmd_register_read REG_S1 st dev) fun s1 st dev =>
  andThen (setup_program_buffer
      [assembly.sw 0 8 w.code 9, assembly.addi 8 8 w.byte_width] st dev)
    fun _ st dev =>
  andThen (abstract_cmd_register_write REG_S0 address st dev) fun _ st dev =>
  andThen (progbuf_write_loop data st dev) fun _ st dev =>
  andThen (read_dm_register_untyped ADDR_ABSTRACTCS st dev) fun status st dev =>
  andThen (checkCmderrWrapped status st dev) fun _ st dev =>
  andThen (abstract_cmd_register_write REG_S0 s0 st dev) fun _ st dev =>
  abstract_cmd_register_write REG_S1 s1 st dev

/-! ## CSR access via the program buffer -/

/-- The bare-`postexec` command of the CSR paths: `AccessRegisterCommand(0)`
with only `set_postexec(true)`. -/
def POSTEXEC_CMD : Nat := accessRegisterCommand 0 true false false 0

/-- `RiscvCommunicationInterface::read_csr_progbuf`. -/
def read_csr_progbuf (address : Nat) (st : State) (dev : Dev) : RvResult Nat :=
  andThen (abstract_cmd_register_read REG_S0 st dev) fun s0 st dev =>
  andThen (setup_program_buffer [assembly.csrr 8 address] st dev) fun _ st dev =>
  andThen (execute_abstract_command POSTEXEC_CMD st dev) fun _ st dev =>
  andThen (abstract_cmd_register_read REG_S0 st dev) fun reg_value st dev =>
  andThen (abstract_cmd_register_write REG_S0 s0 st dev) fun _ st dev =>
  rvPure reg_value st dev

/-- `RiscvCommunicationInterface::write_csr_progbuf`. -/
def write_csr_progbuf (address value : Nat) (st : State) (dev : Dev) : RvResult Unit :=
  andThen (abstract_cmd_register_read REG_S0 st dev) fun s0 st dev =>
  andThen (abstract_cmd_register_write REG_S0 value st dev) fun _ st dev =>
  andThen (setup_program_buffer [assembly.csrw address 8] st dev) fun _ st dev =>
  andThen (execute_abstract_command POSTEXEC_CMD st dev) fun _ st dev =>
  abstract_cmd_register_write REG_S0 s0 st dev

/-! ## Wide-register aggregator (`impl RiscvValue for u64 / u128`)

`r0..r3` are the `LargeRegister` slot addresses (`Sbdata0..3` or
`Data0..3`).  Slot 0 is side-effecting and is accessed last. -/

/-- `<u64 as RiscvValue>::read_from_register`: read slot 1, then slot 0,
and return `upper << 32 | lower`. -/
def u64.read_from_register (r1 r0 : Nat) (st : State) (dev : Dev) : RvResult Nat :=
  andThen (read_dm_register_untyped r1 st dev) fun upper_bits st dev =>
  andThen (read_dm_register_untyped r0 st dev) fun lower_bits st dev =>
  rvPure ((upper_bits <<< 32) ||| lower_bits) st dev

/-- `<u64 as RiscvValue>::write_to_register`: write slot 1
(`(value >> 32) as u32`), then slot 0 (`value & 0xffff_ffff`). -/
def u64.write_to_register (r1 r0 value : Nat) (st : State) (dev : Dev) : RvResult Unit :=
  let upper_bits := (value >>> 32) % 2 ^ 32
  let lower_bits := value &&& 0xffffffff
  andThen (write_dm_register_untyped r1 upper_bits st dev) fun _ st dev =>
  write_dm_register_untyped r0 lower_bits st dev

/-- `<u128 as RiscvValue>::read_from_register`: read slots 3, 2, 1, 0 in that
order and combine `bits3 << 96 | bits2 << 64 | bits1 << 32 | bits0`. -/
def u128.read_from_register (r3 r2 r1 r0 : Nat) (st : State) (dev : Dev) :
    RvResult Nat :=
  andThen (read_dm_register_untyped r3 st dev) fun bits3 st dev =>
  andThen (read_dm_register_untyped r2 st dev) fun bits2 st dev =>
  andThen (read_dm_register_untyped r1 st dev) fun bits1 st dev =>
  andThen (read_dm_register_untyped r0 st dev) fun bits0 st dev =>
  rvPure ((bits3 <<< 96) ||| (bits2 <<< 64) ||| (bits1 <<< 32) ||| bits0) st dev

/-- `<u128 as RiscvValue>::write_to_register`: write slots 3, 2, 1, 0 in that
order. -/
def u128.write_to_register (r3 r2 r1 r0 value : Nat) (st : State) (dev : Dev) :
    RvResult Unit :=
  let bits3 := (value >>> 96) % 2 ^ 32
  let bits2 := (value >>> 64) % 2 ^ 32
  let bits1 := (value >>> 32) % 2 ^ 32
  let bits0 := value &&& 0xffffffff
  andThen (write_dm_register_untyped r3 bits3 st dev) fun _ st dev =>
  andThen (write_dm_register_untyped r2 bits2 st dev) fun _ st dev =>
  andThen (write_dm_register_untyped r1 bits1 st dev) fun _ st dev =>
  write_dm_register_untyped r0 bits0 st dev

/-! ## Deferred (scheduled) DMI pipeline

`Dtm::schedule_dmi_register_access` enqueues a DMI descriptor and returns its
result index; `execute` drains the queue, consuming one oracle response per
scheduled access, in scheduling order. -/

/-- Schedule one DMI access; the returned index is its position in the
result vector of the eventual `execute`. -/
def schedule_dmi (pending : List DmiEvent) (addr value : Nat) (k : DmiKind) :
    Nat × List DmiEvent :=
  (pending.length, pending ++ [⟨k, addr, value⟩])

/-- `schedule_write_dm_register_untyped`. -/
def schedule_write_dm_register_untyped (pending : List DmiEvent) (addr value : Nat) :
    Nat × List DmiEvent :=
  schedule_dmi pending addr value .write

/-- `schedule_read_dm_register_untyped`: a read access followed by a NoOp;
the returned index is that of the NoOp, which carries the response. -/
def schedule_read_dm_register_untyped (pending : List DmiEvent) (addr : Nat) :
    Nat × List DmiEvent :=
  let (_, p1) := schedule_dmi pending addr 0 .read
  schedule_dmi p1 0 0 .noop

/-- `Dtm::execute`: drain the pipeline, producing one 32-bit response per
scheduled access. -/
def dtmExecute (dev : Dev) (pending : List DmiEvent) : List Nat × Dev :=
  ((List.range pending.length).map fun i => dev.getD i 0 % 2 ^ 32,
   dev.drop pending.length)

/-- `<u64 as RiscvValue>::schedule_write_to_register`: slot 1 scheduled
strictly before slot 0. -/
def u64.schedule_write_to_register (pending : List DmiEvent) (r1 r0 value : Nat) :
    Nat × List DmiEvent :=
  let upper_bits := (value >>> 32) % 2 ^ 32
  let lower_bits := value &&& 0xffffffff
  let (_, p1) := schedule_write_dm_register_untyped pending r1 upper_bits
  schedule_write_dm_register_untyped p1 r0 lower_bits

/-- `<u64 as RiscvValue>::schedule_read_from_register`: slot 1 scheduled
strictly before slot 0. -/
def u64.schedule_read_from_register (pending : List DmiEvent) (r1 r0 : Nat) :
    Nat × List DmiEvent :=
  let (_, p1) := schedule_read_dm_register_untyped pending r1
  schedule_read_dm_register_untyped p1 r0

/-- `<u128 as RiscvValue>::schedule_write_to_register`: slots 3, 2, 1, 0 in
that order. -/
def u128.schedule_write_to_register (pending : List DmiEvent)
    (r3 r2 r1 r0 value : Nat) : Nat × List DmiEvent :=
  let bits3 := (value >>> 96) % 2 ^ 32
  let bits2 := (value >>> 64) % 2 ^ 32
  let bits1 := (value >>> 32) % 2 ^ 32
  let bits0 := value &&& 0xffffffff
  let (_, p1) := schedule_write_dm_register_untyped pending r3 bits3
  let (_, p2) := schedule_write_dm_register_untyped p1 r2 bits2
  let (_, p3) := schedule_write_dm_register_untyped p2 r1 bits1
  schedule_write_dm_register_untyped p3 r0 bits0

/-- `<u128 as RiscvValue>::schedule_read_from_register`: slots 3, 2, 1, 0 in
that order. -/
def u128.schedule_read_from_register (pending : List DmiEvent) (r3 r2 r1 r0 : Nat) :
    Nat × List DmiEvent :=
  let (_, p1) := schedule_read_dm_register_untyped pending r3
  let (_, p2) := schedule_read_dm_register_untyped p1 r2
  let (_, p3) := schedule_read_dm_register_untyped p2 r1
  schedule_read_dm_register_untyped p3 r0

/-! ## Memory access — system bus engine (multiple read) -/

/-- The `for _ in data[..data_len - 1]` scheduling loop of
`perform_memory_read_multiple_sysbus` (one `sbdata0` read per element). -/
def schedule_sbdata_reads (pending : List DmiEvent) :
    Nat → List Nat × List DmiEvent
  | 0 => ([], pending)
  | count + 1 =>
      let (i, p1) := schedule_read_dm_register_untyped pending ADDR_SBDATA0
      let (is, p2) := schedule_sbdata_reads p1 count
      (i :: is, p2)

/-- `RiscvCommunicationInterface::perform_memory_read_multiple_sysbus`.
The buffer is modelled by its length `count`; with `count = 0` the slice
`data[..data_len - 1]` panics (`none`).  The trace is the scheduled pipeline,
drained by `execute`. -/
def perform_memory_read_multiple_sysbus (w : RiscvBusAccess) (address count : Nat)
    (st : State) (dev : Dev) : RvResult (List Nat) :=
  let sbcs1 := sbcs.build w.code true true true
  let (_, p1) := schedule_write_dm_register_untyped [] ADDR_SBCS sbcs1
  let (_, p2) := schedule_write_dm_register_untyped p1 ADDR_SBADDRESS0 address
  if count = 0 then none
  else
    let (idxs, p3) := schedule_sbdata_reads p2 (count - 1)
    let sbcs2 := sbcs.build w.code true true false
    let (_, p4) := schedule_write_dm_register_untyped p3 ADDR_SBCS sbcs2
    let (lastIdx, p5) := schedule_read_dm_register_untyped p4 ADDR_SBDATA0
    let (sbcsIdx, p6) := schedule_read_dm_register_untyped p5 ADDR_SBCS
    let (results, dev') := dtmExecute dev p6
    let vals := (idxs ++ [lastIdx]).map fun i => truncW w (results.getD i 0)
    if sbcs.sberror (results.getD sbcsIdx 0) ≠ 0 then
      some (.error .SystemBusAccess, st, dev', p6)
    else some (.ok vals, st, dev', p6)

/-- `RiscvCommunicationInterface::read_multiple`: dispatch on the access
method recorded for `A32`; `AbstractCommand` hits `unimplemented!` (a panic,
modelled `none`). -/
def read_multiple (w : RiscvBusAccess) (address count : Nat) (st : State)
    (dev : Dev) : RvResult (List Nat) :=
  match st.memory_access_method .A32 with
  | (.ProgramBuffer, st) => perform_memory_read_multiple_progbuf w address count st dev
  | (.SystemBus, st) => perform_memory_read_multiple_sysbus w address count st dev
  | (.AbstractCommand, _) => none

/-! ## Initialization / discovery (`enter_debug_mode`) -/

/-- `u32::count_ones`, fuel-bounded on the 32 bits of the value. -/
def countOnesAux : Nat → Nat → Nat
  | 0, _ => 0
  | fuel + 1, n => if n = 0 then 0 else n % 2 + countOnesAux fuel (n / 2)

/-- `u32::count_ones` (for `hartsellen = hartsel.count_ones()`). -/
def countOnes (n : Nat) : Nat := countOnesAux 32 n

/-- `combine` step of the confstrptr aggregation in `enter_debug_mode`:
`confstrptr_0 | confstrptr_1 << 8 | confstrptr_2 << 16 | confstrptr_3 << 32`. -/
def combine_confstrptr (c0 c1 c2 c3 : Nat) : Nat :=
  c0 ||| (c1 <<< 8) ||| (c2 <<< 16) ||| (c3 <<< 32)

/-- The hart enumeration loop of `enter_debug_mode`
(`for hart_index in 1..max_hart_index`): select the hart, read `dmstatus`,
stop at the first hart with `anynonexistent`, counting existing harts. -/
def hart_loop : Nat → Nat → Nat → State → Dev → RvResult Nat
  | 0, _, num_harts, st, dev => rvPure num_harts st dev
  | fuel + 1, hart_index, num_harts, st, dev =>
      andThen (write_dm_register_untyped ADDR_DMCONTROL
          (dmcontrol.withHartsel dmcontrol.DMACTIVE hart_index) st dev) fun _ st dev =>
      andThen (read_dm_register_untyped ADDR_DMSTATUS st dev) fun status st dev =>
      if dmstatus.anynonexistent status then rvPure num_harts st dev
      else hart_loop fuel (hart_index + 1) (num_harts + 1) st dev

/-- `memory_access_info.insert(width, MemoryAccessMethod::SystemBus)`. -/
def insertSystemBus (st : State) (w : RiscvBusAccess) : State :=
  { st with memory_access_info :=
      updateA st.memory_access_info w.code MemoryAccessMethod.SystemBus.code }

/-- The `sbcs` handling at the end of `enter_debug_mode` (continued): when
`sbversion = 1`, record `SystemBus` as access method for every width whose
`sbaccessN` bit is set; otherwise leave the map untouched. -/
def applySbcs (st : State) (v : Nat) : State :=
  if sbcs.sbversion v = 1 then
    let st := if sbcs.sbaccess8 v then insertSystemBus st .A8 else st
    let st := if sbcs.sbaccess16 v then insertSystemBus st .A16 else st
    let st := if sbcs.sbaccess32 v then insertSystemBus st .A32 else st
    let st := if sbcs.sbaccess64 v then insertSystemBus st .A64 else st
    if sbcs.sbaccess128 v then insertSystemBus st .A128 else st
  else st

/-- `RiscvCommunicationInterface::enter_debug_mode`: the one-shot discovery
protocol executed on attach (`Dtm::reset` issues no DMI access and is not
traced). -/
def enter_debug_mode (st : State) (dev : Dev) : RvResult Unit :=
  andThen (read_dm_register_untyped ADDR_DMSTATUS st dev) fun status st dev =>
  let st := { st with debug_version := .fromRaw (dmstatus.version status) }
  if st.debug_version ≠ DebugModuleVersion.Version0_13 then
    rvErr (.UnsupportedDebugModuleVersion st.debug_version) st dev
  else
  let st := { st with implicit_ebreak := dmstatus.impebreak status }
  andThen (if dmstatus.confstrptrvalid status then
             andThen (read_dm_register_untyped 0x19 st dev) fun c0 st dev =>
             andThen (read_dm_register_untyped 0x1a st dev) fun c1 st dev =>
             andThen (read_dm_register_untyped 0x1b st dev) fun c2 st dev =>
             andThen (read_dm_register_untyped 0x1c st dev) fun c3 st dev =>
             rvPure (some (combine_confstrptr c0 c1 c2 c3)) st dev
           else rvPure none st dev) fun cp st dev =>
  let st := { st with confstrptr := cp }
  andThen (write_dm_register_untyped ADDR_DMCONTROL dmcontrol.DMACTIVE st dev)
    fun _ st dev =>
  andThen (write_dm_register_untyped ADDR_DMCONTROL
      (dmcontrol.withHartsel dmcontrol.DMACTIVE 0xffffffff) st dev) fun _ st dev =>
  andThen (read_dm_register_untyped ADDR_DMCONTROL st dev) fun control st dev =>
  let st := { st with hartsellen := countOnes (dmcontrol.hartsel control) }
  andThen (hart_loop (2 ^ st.hartsellen - 1) 1 1 st dev) fun nh st dev =>
  let st := { st with num_harts := nh }
  andThen (write_dm_register_untyped ADDR_DMCONTROL
      (dmcontrol.withHartsel dmcontrol.DMACTIVE 0) st dev) fun _ st dev =>
  andThen (read_dm_register_untyped ADDR_ABSTRACTCS st dev) fun acs st dev =>
  let st := { st with progbuf_size := abstractcs.progbufsize acs,
                      data_register_count := abstractcs.datacount acs }
  andThen (read_dm_register_untyped ADDR_HARTINFO st dev) fun hi st dev =>
  let st := { st with nscratch := hartinfo.nscratch hi }
  let aa := abstractauto.build (2 ^ st.progbuf_size - 1)
      (2 ^ st.data_register_count - 1)
  andThen (write_dm_register_untyped ADDR_ABSTRACTAUTO aa st dev) fun _ st dev =>
  andThen (read_dm_register_untyped ADDR_ABSTRACTAUTO st dev) fun aaRb st dev =>
  let st := { st with supports_autoexec := aaRb == aa }
  andThen (write_dm_register_untyped ADDR_ABSTRACTAUTO 0 st dev) fun _ st dev =>
  andThen (read_dm_register_untyped ADDR_SBCS st dev) fun sb st dev =>
  rvPure () (applySbcs st sb) dev

/-! ## Result accessors (used to state the claims) -/

/-- The `Except` outcome of an operation, `none` when it panicked. -/
def valueOf? (r : RvResult α) : Option (Except RiscvError α) :=
  r.map fun x => x.1

/-- The state after an operation, `none` when it panicked. -/
def stateOf? (r : RvResult α) : Option State :=
  r.map fun x => x.2.1

/-- The DMI trace of an operation (empty for a panic). -/
def traceOf (r : RvResult α) : List DmiEvent :=
  match r with
  | some (_, _, _, tr) => tr
  | none => []

/-- Whether an operation returned `Ok`. -/
def isOk (r : RvResult α) : Bool :=
  match r with
  | some (.ok _, _, _, _) => true
  | _ => false

/-- The remaining device oracle after an operation (empty for a panic). -/
def devOf (r : RvResult α) : Dev :=
  match r with
  | some (_, _, d, _) => d
  | none => []

/-- Device oracle for a successful attach whose `abstractcs` response reports
`progbufsize = 17` (`0x11000000`): `dmstatus` responds `version = 2`,
`dmcontrol` reads back `hartsel = 0`, every other response is zero. -/
def c3Dev : Dev := [0, 2, 0, 0, 0, 0, 0, 0, 0x11000000, 0, 0, 0, 0, 0, 0, 0, 0]

/-- Device oracle for a plain successful attach: `dmstatus` responds
`version = 2` and every other response is zero. -/
def c3DevW : Dev := [0, 2, 0, 0, 0, 0, 0, 0, 0, 0, 0, 0, 0, 0, 0, 0, 0]

/-- A step function that never changes the interface state. -/
def Preserves {α : Type} (g : State → Dev → RvResult α) : Prop :=
  ∀ st dev res st' dev' tr, g st dev = some (res, st', dev', tr) → st' = st

/-- Oracle under which an abstract command completes with `cmderr = 2`
(`NotSupported`): the final `abstractcs` poll answers `0x200`. -/
def c5DevNS : Dev := [0, 0, 0, 0, 0, 0x200]

/-- The same oracle shifted by the `data0` write of a register write. -/
def c5DevNSW : Dev := [0, 0, 0, 0, 0, 0, 0x200]

/-- State after `abstract_cmd_register_read(s0)` observed `NotSupported`. -/
def c5StateRead : State :=
  set_abstract_cmd_register_unsupported State.new REG_S0 SUPPORT_READ

/-- State after `abstract_cmd_register_write(s0, _)` observed `NotSupported`. -/
def c5StateWrite : State :=
  set_abstract_cmd_register_unsupported State.new REG_S0 SUPPORT_WRITE

/-- DMI trace of the failing register read. -/
def c5TraceRead : List DmiEvent :=
  [⟨.write, 0x10, 0x10000001⟩, ⟨.read, 0x16, 0⟩, ⟨.noop, 0, 0⟩,
   ⟨.write, 0x17, 0x221008⟩, ⟨.read, 0x16, 0⟩, ⟨.noop, 0, 0⟩]

/-- DMI trace of the failing register write. -/
def c5TraceWrite : List DmiEvent :=
  [⟨.write, 0x04, 0⟩, ⟨.write, 0x10, 0x10000001⟩, ⟨.read, 0x16, 0⟩, ⟨.noop, 0, 0⟩,
   ⟨.write, 0x17, 0x231008⟩, ⟨.read, 0x16, 0⟩, ⟨.noop, 0, 0⟩]

/-- The interface state of the C4 witness before the first upload. -/
def c4StateBefore : State := { State.new with progbuf_size := 16 }

/-- The interface state of the C4 witness after a successful upload of
`[1, 2]`. -/
def c4StateAfter : State :=
  { c4StateBefore with
    progbuf_cache := [1, 2, 0, 0, 0, 0, 0, 0, 0, 0, 0, 0, 0, 0, 0, 0] }

/-- An interface state whose `memory_access_info` routes 32-bit accesses to
the system bus. -/
def c10SysbusState : State :=
  { State.new with memory_access_info :=
      [(RiscvBusAccess.A32.code, MemoryAccessMethod.SystemBus.code)] }

/-- An interface state with a 16-word program buffer (so that the
program-buffer path reaches its element loop). -/
def c10ProgbufState : State := { State.new with progbuf_size := 16 }

/-- The DMI write of the `command` register issued by a save (register read)
of `regno`. -/
def saveCmdEvent (regno : Nat) : DmiEvent := ⟨.write, ADDR_COMMAND, readRegCmd regno⟩

/-- The DMI write of the `command` register issued by a restore (register
write) of `regno`. -/
def restoreCmdEvent (regno : Nat) : DmiEvent :=
  ⟨.write, ADDR_COMMAND, writeRegCmd regno⟩

/-- Interface state with a 16-word program buffer, used by the C2 runs. -/
def c2State : State := { State.new with progbuf_size := 16 }

/-- Oracle whose final `abstractcs` read reports `cmderr = 2`, making the
single-word progbuf read fail after its program-buffer execution. -/
def c2Dev : Dev := List.replicate 13 0 ++ [0x200]

/-- All-zero oracle: every abstract command completes without error. -/
def c2Zeros : Dev := List.replicate 64 0

/-- A run `r` of an engine started on `(st, dev)` saves `s0` and restores the
saved value: its first step is the `abstract_cmd_register_read` of `s0`
(returning the architectural value `s0v`), and its DMI trace ends with the
trace of a complete successful `abstract_cmd_register_write` that writes that
very `s0v` back into `s0`, whose resulting state and oracle are the run's
own.  This distinguishes the restore both from the engine's own intermediate
writes into `s0` (their command word is issued on different data) and from a
run that drops the restore (its trace cannot end with such a segment). -/
def SavesRestoresS0 {α : Type} (r : RvResult α) (st : State) (dev : Dev) : Prop :=
  ∃ s0v st1 dev1 trS trMid stR devR stF devF trR,
    abstract_cmd_register_read REG_S0 st dev = some (.ok s0v, st1, dev1, trS) ∧
    abstract_cmd_register_write REG_S0 s0v stR devR = some (.ok (), stF, devF, trR) ∧
    traceOf r = trS ++ trMid ++ trR ∧
    stateOf? r = some stF ∧ devOf r = devF

/-- Two-register analogue of `SavesRestoresS0`: the run's first two steps are
the saves of `s0` then `s1`, and its trace ends with the back-to-back
successful `abstract_cmd_register_write` runs restoring the saved `s0v` and
then the saved `s1v`, the second starting in the state and oracle the first
produced and finishing in the run's own final state and oracle. -/
def SavesRestoresS0S1 {α : Type} (r : RvResult α) (st : State) (dev : Dev) : Prop :=
  ∃ s0v s1v st1 dev1 trS0 st2 dev2 trS1 trMid stR devR stR2 devR2 trR0 stF devF trR1,
    abstract_cmd_register_read REG_S0 st dev = some (.ok s0v, st1, dev1, trS0) ∧
    abstract_cmd_register_read REG_S1 st1 dev1 = some (.ok s1v, st2, dev2, trS1) ∧
    abstract_cmd_register_write REG_S0 s0v stR devR =
      some (.ok (), stR2, devR2, trR0) ∧
    abstract_cmd_register_write REG_S1 s1v stR2 devR2 =
      some (.ok (), stF, devF, trR1) ∧
    traceOf r = trS0 ++ trS1 ++ trMid ++ trR0 ++ trR1 ∧
    stateOf? r = some stF ∧ devOf r = devF

end Riscv

deriving instance DecidableEq for Except

namespace Riscv

/-! ## Sequencing lemmas -/

theorem andThen_eq_some_ok {α β : Type} {r : RvResult α}
    {f : α → State → Dev → RvResult β} {b : β} {st2 : State} {dev2 : Dev}
    {tr : List DmiEvent}
    (h : andThen r f = some (.ok b, st2, dev2, tr)) :
    ∃ a st1 dev1 tr1 tr2, r = some (.ok a, st1, dev1, tr1) ∧
      f a st1 dev1 = some (.ok b, st2, dev2, tr2) ∧ tr = tr1 ++ tr2 := by
  match hr : r with
  | none => simp [andThen, hr] at h
  | some (.error e, st1, dev1, tr1) => simp [andThen] at h
  | some (.ok a, st1, dev1, tr1) =>
    simp only [andThen] at h
    match hf : f a st1 dev1 with
    | none => simp [hf] at h
    | some (.error e, st', dev', tr') =>
      rw [hf] at h
      simp at h
    | some (.ok b', st', dev', tr') =>
      rw [hf] at h
      simp only [Option.some.injEq, Prod.mk.injEq] at h
      obtain ⟨h1, h2, h3, h4⟩ := h
      cases h1
      exact ⟨a, st1, dev1, tr1, tr', rfl, by rw [hf, h2, h3], h4.symm⟩

theorem isOk_iff {α : Type} {r : RvResult α} :
    isOk r = true ↔ ∃ a st dev tr, r = some (.ok a, st, dev, tr) := by
  match r with
  | none => simp [isOk]
  | some (.error e, st, dev, tr) => simp [isOk]
  | some (.ok a, st, dev, tr) => simp [isOk]

theorem traceOf_some {α : Type} {x : Except RiscvError α × State × Dev × List DmiEvent} :
    traceOf (some x) = x.2.2.2 := rfl

/-! ## C1 — confstrptr aggregation -/

/-- **C1.** When `dmstatus.confstrptrvalid` is set during attach, the four
32-bit registers `confstrptr0..3` are combined with the shift pattern
`0, 8, 16, 32` (not `0, 32, 64, 96`): for `confstrptr0..3 = 0x11, 0x22,
0x33, 0x44` the stored `confstrptr` equals
`(0x44 << 32) | (0x33 << 16) | (0x22 << 8) | 0x11`.  The second conjunct runs
`enter_debug_mode` against an oracle whose `dmstatus` response has
`version = 2` and `confstrptrvalid = 1` and whose `confstrptr0..3` responses
are `0x11, 0x22, 0x33, 0x44`; the attach succeeds and stores exactly that
value. -/
theorem C1_confstrptr_shift_pattern :
    combine_confstrptr 0x11 0x22 0x33 0x44 =
      ((0x44 <<< 32) ||| (0x33 <<< 16) ||| (0x22 <<< 8) ||| 0x11) ∧
    valueOf? (enter_debug_mode State.new
        [0, 0x12, 0, 0x11, 0, 0x22, 0, 0x33, 0, 0x44, 0, 0, 0, 0, 0,
         0, 0x08000002, 0, 0, 0, 0, 0, 0, 0, 0]) = some (.ok ()) ∧
    (stateOf? (enter_debug_mode State.new
        [0, 0x12, 0, 0x11, 0, 0x22, 0, 0x33, 0, 0x44, 0, 0, 0, 0, 0,
         0, 0x08000002, 0, 0, 0, 0, 0, 0, 0, 0])).map State.confstrptr =
      some (some ((0x44 <<< 32) ||| (0x33 <<< 16) ||| (0x22 <<< 8) ||| 0x11)) := by
  refine ⟨by decide, by decide, by decide⟩

/-! ## C8 — wide-register slot ordering -/

/-- **C8.** A 64-bit write to a wide DM register pair issues the DMI write of
the upper 32 bits to slot 1 strictly before the write of the lower 32 bits to
slot 0; a 64-bit read issues slot 1 before slot 0 and returns
`(slot1 << 32) | slot0`; the 128-bit variants use slot order 3, 2, 1, 0 with
slot 0 last.  Stated for the immediate and the scheduled (deferred-pipeline)
variants; traces and pipelines list DMI accesses in issue order. -/
theorem C8_wide_register_ordering :
    (∀ (r1 r0 value : Nat) (st : State) (x y : Nat) (rest : Dev),
      u64.write_to_register r1 r0 value st (x :: y :: rest) =
        some (.ok (), st, rest,
          [⟨.write, r1, (value >>> 32) % 2 ^ 32⟩,
           ⟨.write, r0, value &&& 0xffffffff⟩])) ∧
    (∀ (r1 r0 : Nat) (st : State) (a b c d : Nat) (rest : Dev),
      u64.read_from_register r1 r0 st (a :: b :: c :: d :: rest) =
        some (.ok (((b % 2 ^ 32) <<< 32) ||| (d % 2 ^ 32)), st, rest,
          [⟨.read, r1, 0⟩, ⟨.noop, 0, 0⟩, ⟨.read, r0, 0⟩, ⟨.noop, 0, 0⟩])) ∧
    (∀ (r3 r2 r1 r0 value : Nat) (st : State) (x0 x1 x2 x3 : Nat) (rest : Dev),
      u128.write_to_register r3 r2 r1 r0 value st (x0 :: x1 :: x2 :: x3 :: rest) =
        some (.ok (), st, rest,
          [⟨.write, r3, (value >>> 96) % 2 ^ 32⟩,
           ⟨.write, r2, (value >>> 64) % 2 ^ 32⟩,
           ⟨.write, r1, (value >>> 32) % 2 ^ 32⟩,
           ⟨.write, r0, value &&& 0xffffffff⟩])) ∧
    (∀ (r3 r2 r1 r0 : Nat) (st : State)
       (a b c d e f g h : Nat) (rest : Dev),
      u128.read_from_register r3 r2 r1 r0 st
          (a :: b :: c :: d :: e :: f :: g :: h :: rest) =
        some (.ok (((b % 2 ^ 32) <<< 96) ||| ((d % 2 ^ 32) <<< 64) |||
                   ((f % 2 ^ 32) <<< 32) ||| (h % 2 ^ 32)), st, rest,
          [⟨.read, r3, 0⟩, ⟨.noop, 0, 0⟩, ⟨.read, r2, 0⟩, ⟨.noop, 0, 0⟩,
           ⟨.read, r1, 0⟩, ⟨.noop, 0, 0⟩, ⟨.read, r0, 0⟩, ⟨.noop, 0, 0⟩])) ∧
    (∀ (pending : List DmiEvent) (r1 r0 value : Nat),
      (u64.schedule_write_to_register pending r1 r0 value).2 =
        pending ++ [⟨.write, r1, (value >>> 32) % 2 ^ 32⟩,
                    ⟨.write, r0, value &&& 0xffffffff⟩]) ∧
    (∀ (pending : List DmiEvent) (r1 r0 : Nat),
      (u64.schedule_read_from_register pending r1 r0).2 =
        pending ++ [⟨.read, r1, 0⟩, ⟨.noop, 0, 0⟩, ⟨.read, r0, 0⟩, ⟨.noop, 0, 0⟩]) ∧
    (∀ (pending : List DmiEvent) (r3 r2 r1 r0 value : Nat),
      (u128.schedule_write_to_register pending r3 r2 r1 r0 value).2 =
        pending ++ [⟨.write, r3, (value >>> 96) % 2 ^ 32⟩,
                    ⟨.write, r2, (value >>> 64) % 2 ^ 32⟩,
                    ⟨.write, r1, (value >>> 32) % 2 ^ 32⟩,
                    ⟨.write, r0, value &&& 0xffffffff⟩]) ∧
    (∀ (pending : List DmiEvent) (r3 r2 r1 r0 : Nat),
      (u128.schedule_read_from_register pending r3 r2 r1 r0).2 =
        pending ++ [⟨.read, r3, 0⟩, ⟨.noop, 0, 0⟩, ⟨.read, r2, 0⟩, ⟨.noop, 0, 0⟩,
                    ⟨.read, r1, 0⟩, ⟨.noop, 0, 0⟩, ⟨.read, r0, 0⟩, ⟨.noop, 0, 0⟩]) := by
  refine ⟨fun _ _ _ _ _ _ _ => rfl, fun _ _ _ _ _ _ _ _ => rfl,
          fun _ _ _ _ _ _ _ _ _ _ _ => rfl, fun _ _ _ _ _ _ _ _ _ _ _ _ _ _ => rfl,
          ?_, ?_, ?_, ?_⟩ <;>
    intros <;>
    simp [u64.schedule_write_to_register, u64.schedule_read_from_register,
          u128.schedule_write_to_register, u128.schedule_read_from_register,
          schedule_write_dm_register_untyped, schedule_read_dm_register_untyped,
          schedule_dmi]

/-! ## C9 — cmderr decoding totality on the 3-bit field -/

theorem parse_isSome_of_lt_8 {v : Nat} (h : v < 8) :
    (AbstractCommandErrorKind.parse v).isSome = true := by
  have h8 : v = 0 ∨ v = 1 ∨ v = 2 ∨ v = 3 ∨ v = 4 ∨ v = 5 ∨ v = 6 ∨ v = 7 := by
    omega
  rcases h8 with rfl | rfl | rfl | rfl | rfl | rfl | rfl | rfl <;> rfl

theorem cmderr_lt_8 (x : Nat) : abstractcs.cmderr x < 8 :=
  Nat.mod_lt _ (by norm_num)

theorem checkCmderr_ne_none (a : Nat) (st : State) (dev : Dev) :
    checkCmderr a st dev ≠ none := by
  unfold checkCmderr
  split
  · rcases hp : AbstractCommandErrorKind.parse (abstractcs.cmderr a) with _ | k
    · have := parse_isSome_of_lt_8 (cmderr_lt_8 a)
      rw [hp] at this
      simp at this
    · simp [rvErr]
  · simp [rvPure]

theorem execPoll_ne_none (fuel : Nat) (st : State) (dev : Dev) :
    execPoll fuel st dev ≠ none := by
  induction fuel generalizing st dev with
  | zero => simp [execPoll, rvErr]
  | succ fuel ih =>
    simp only [execPoll, andThen, read_dm_register_untyped, dmiAccess]
    split
    · next heq =>
        exfalso
        split at heq
        · exact absurd heq (ih _ _)
        · exact Option.noConfusion heq
    · simp

theorem andThen_ne_none {α β : Type} {r : RvResult α}
    {f : α → State → Dev → RvResult β}
    (hr : r ≠ none) (hf : ∀ a st dev, f a st dev ≠ none) :
    andThen r f ≠ none := by
  match hr' : r with
  | none => exact absurd rfl hr
  | some (.error e, st, dev, tr) => simp [andThen]
  | some (.ok a, st, dev, tr) =>
    simp only [andThen]
    match hg : f a st dev with
    | none => exact absurd hg (hf a st dev)
    | some (res, st', dev', tr') => simp

theorem execute_abstract_command_ne_none (c : Nat) (st : State) (dev : Dev) :
    execute_abstract_command c st dev ≠ none := by
  unfold execute_abstract_command
  refine andThen_ne_none (by simp [write_dm_register_untyped, dmiAccess]) ?_
  intro _ st1 dev1
  refine andThen_ne_none (by simp [read_dm_register_untyped, dmiAccess]) ?_
  intro a st2 dev2
  refine andThen_ne_none ?_ ?_
  · split
    · simp [write_dm_register_untyped, dmiAccess]
    · simp [rvPure]
  intro _ st3 dev3
  refine andThen_ne_none (by simp [write_dm_register_untyped, dmiAccess]) ?_
  intro _ st4 dev4
  exact andThen_ne_none (execPoll_ne_none _ _ _) checkCmderr_ne_none

/-- **C9.** Decoding a `cmderr` value above 7 aborts the process (modelled:
`parse` returns `none`), values 0..7 decode to the corresponding kind, and
the abort branch is unreachable from the interface's own call sites because
every caller passes the 3-bit `cmderr` field of `abstractcs` (for which
`parse` always succeeds); consequently `execute_abstract_command` never
panics. -/
theorem C9_parse_panics_above_7 :
    (∀ v : Nat, 7 < v → AbstractCommandErrorKind.parse v = none) ∧
    AbstractCommandErrorKind.parse 0 = some .None ∧
    AbstractCommandErrorKind.parse 1 = some .Busy ∧
    AbstractCommandErrorKind.parse 2 = some .NotSupported ∧
    AbstractCommandErrorKind.parse 3 = some .Exception ∧
    AbstractCommandErrorKind.parse 4 = some .HaltResume ∧
    AbstractCommandErrorKind.parse 5 = some .Bus ∧
    AbstractCommandErrorKind.parse 6 = some .Reserved ∧
    AbstractCommandErrorKind.parse 7 = some .Other ∧
    (∀ x : Nat, (AbstractCommandErrorKind.parse (abstractcs.cmderr x)).isSome = true) ∧
    (∀ (c : Nat) (st : State) (dev : Dev),
      execute_abstract_command c st dev ≠ none) := by
  refine ⟨?_, rfl, rfl, rfl, rfl, rfl, rfl, rfl, rfl, ?_, execute_abstract_command_ne_none⟩
  · intro v hv
    unfold AbstractCommandErrorKind.parse
    have h0 : v ≠ 0 := by omega
    have h1 : v ≠ 1 := by omega
    have h2 : v ≠ 2 := by omega
    have h3 : v ≠ 3 := by omega
    have h4 : v ≠ 4 := by omega
    have h5 : v ≠ 5 := by omega
    have h6 : v ≠ 6 := by omega
    have h7 : v ≠ 7 := by omega
    simp [h0, h1, h2, h3, h4, h5, h6, h7]
  · intro x
    exact parse_isSome_of_lt_8 (cmderr_lt_8 x)

/-- Witness for C9: the abort branch is taken at the concrete out-of-range
input 8, while the in-range field value of a concrete `abstractcs` image
decodes successfully. -/
theorem C9_parse_panics_above_7_witness :
    AbstractCommandErrorKind.parse 8 = none ∧
    (AbstractCommandErrorKind.parse (abstractcs.cmderr 0x200)).isSome = true := by
  exact ⟨C9_parse_panics_above_7.1 8 (by norm_num),
         C9_parse_panics_above_7.2.2.2.2.2.2.2.2.2.1 0x200⟩

/-! ## C6 — program-buffer size check -/

theorem andThen_eq_some_error {α β : Type} {r : RvResult α}
    {f : α → State → Dev → RvResult β} {e : RiscvError} {st2 : State}
    {dev2 : Dev} {tr : List DmiEvent}
    (h : andThen r f = some (.error e, st2, dev2, tr)) :
    r = some (.error e, st2, dev2, tr) ∨
      ∃ a st1 dev1 tr1 tr2, r = some (.ok a, st1, dev1, tr1) ∧
        f a st1 dev1 = some (.error e, st2, dev2, tr2) ∧ tr = tr1 ++ tr2 := by
  match hr : r with
  | none => simp [andThen] at h
  | some (.error e', st1, dev1, tr1) =>
    simp only [andThen, Option.some.injEq, Prod.mk.injEq] at h
    obtain ⟨h1, h2, h3, h4⟩ := h
    cases h1
    exact Or.inl (by rw [h2, h3, h4])
  | some (.ok a, st1, dev1, tr1) =>
    simp only [andThen] at h
    match hf : f a st1 dev1 with
    | none => simp [hf] at h
    | some (.ok b, st', dev', tr') =>
      rw [hf] at h
      simp at h
    | some (.error e', st', dev', tr') =>
      rw [hf] at h
      simp only [Option.some.injEq, Prod.mk.injEq] at h
      obtain ⟨h1, h2, h3, h4⟩ := h
      cases h1
      exact Or.inr ⟨a, st1, dev1, tr1, tr', rfl, by rw [hf, h2, h3], h4.symm⟩

theorem valueOf?_eq_some {α : Type} {r : RvResult α} {x : Except RiscvError α}
    (h : valueOf? r = some x) :
    ∃ st dev tr, r = some (x, st, dev, tr) := by
  match hr : r with
  | none => simp [valueOf?] at h
  | some (y, st, dev, tr) =>
    simp only [valueOf?, Option.map_some] at h
    cases h
    exact ⟨st, dev, tr, rfl⟩

/-- `write_progbuf` only ever fails with `UnsupportedProgramBufferRegister`. -/
theorem write_progbuf_error {i w : Nat} {st : State} {dev : Dev} {e : RiscvError}
    {st' : State} {dev' : Dev} {tr : List DmiEvent}
    (h : write_progbuf i w st dev = some (.error e, st', dev', tr)) :
    e = .UnsupportedProgramBufferRegister i := by
  unfold write_progbuf at h
  split at h
  · simp [write_dm_register_untyped, dmiAccess] at h
  · simp only [rvErr, Option.some.injEq, Prod.mk.injEq, Except.error.injEq] at h
    exact h.1.symm

/-- The program-buffer upload loop only ever fails with
`UnsupportedProgramBufferRegister`. -/
theorem write_progbuf_list_error {data : List Nat} {i : Nat} {st : State}
    {dev : Dev} {e : RiscvError} {st' : State} {dev' : Dev} {tr : List DmiEvent}
    (h : write_progbuf_list data i st dev = some (.error e, st', dev', tr)) :
    ∃ j, e = .UnsupportedProgramBufferRegister j := by
  induction data generalizing i st dev tr with
  | nil => simp [write_progbuf_list, rvPure] at h
  | cons w rest ih =>
    unfold write_progbuf_list at h
    rcases andThen_eq_some_error h with h1 | ⟨a, st1, dev1, tr1, tr2, h1, h2, _⟩
    · exact ⟨i, write_progbuf_error h1⟩
    · exact ih h2

/-- **C6.** `setup_program_buffer(data)` fails with `ProgramBufferTooSmall`
exactly when `len(data)` plus one extra word (when `implicit_ebreak` is
false) exceeds `progbuf_size`; on this failure it issues no DMI writes and
leaves the program-buffer cache (indeed the whole state) unchanged. -/
theorem C6_progbuf_too_small :
    ∀ (data : List Nat) (st : State) (dev : Dev),
      (st.progbuf_size <
          (if st.implicit_ebreak then data.length else data.length + 1) →
        setup_program_buffer data st dev =
          some (.error .ProgramBufferTooSmall, st, dev, [])) ∧
      (valueOf? (setup_program_buffer data st dev) =
          some (.error .ProgramBufferTooSmall) →
        st.progbuf_size <
          (if st.implicit_ebreak then data.length else data.length + 1)) := by
  intro data st dev
  constructor
  · intro h
    unfold setup_program_buffer
    rw [if_pos (by omega)]
    rfl
  · intro h
    by_contra hn
    obtain ⟨st', dev', tr, heq⟩ := valueOf?_eq_some h
    unfold setup_program_buffer at heq
    rw [if_neg (by omega)] at heq
    split at heq
    · exact Option.noConfusion heq
    · split at heq
      · simp [rvPure] at heq
      · rcases andThen_eq_some_error heq with h1 | ⟨a, st1, dev1, tr1, tr2, h1, h2, _⟩
        · obtain ⟨j, hj⟩ := write_progbuf_list_error h1
          exact RiscvError.noConfusion hj
        · rcases andThen_eq_some_error h2 with h3 | ⟨b, st3, dev3, tr3, tr4, h3, h4, _⟩
          · split at h3
            · exact RiscvError.noConfusion (write_progbuf_error h3)
            · simp [rvPure] at h3
          · simp [rvPure] at h4

/-- Witness for C6: on the fresh interface state (`progbuf_size = 0`,
`implicit_ebreak = false`) a one-word program is rejected with
`ProgramBufferTooSmall`, no DMI writes, state unchanged; and conversely the
`ProgramBufferTooSmall` outcome of that call implies the size bound was
violated. -/
theorem C6_progbuf_too_small_witness :
    setup_program_buffer [0x13] State.new [] =
      some (.error .ProgramBufferTooSmall, State.new, [], []) ∧
    State.new.progbuf_size < 2 := by
  refine ⟨(C6_progbuf_too_small [0x13] State.new []).1 (by decide), ?_⟩
  have h2 := (C6_progbuf_too_small [0x13] State.new []).2 (by decide)
  simpa using h2

/-! ## C4 — program-buffer cache skip -/

/-- Unfolding of `setup_program_buffer` with the branch structure exposed. -/
theorem setup_program_buffer_eq (data : List Nat) (st : State) (dev : Dev) :
    setup_program_buffer data st dev =
      if st.progbuf_size <
          (if st.implicit_ebreak then data.length else data.length + 1) then
        some (.error .ProgramBufferTooSmall, st, dev, [])
      else if 16 < data.length then none
      else if data = st.progbuf_cache.take data.length then
        some (.ok (), st, dev, [])
      else
        andThen (write_progbuf_list data 0 st dev) fun _ st dev =>
          andThen (if ¬st.implicit_ebreak ∨ data.length < st.progbuf_size then
                     write_progbuf data.length assembly.EBREAK st dev
                   else rvPure () st dev) fun _ st dev =>
            rvPure ()
              { st with progbuf_cache := data ++ st.progbuf_cache.drop data.length }
              dev := rfl

/-- `write_progbuf` never changes the interface state. -/
theorem write_progbuf_state {i w : Nat} {st : State} {dev : Dev}
    {r : Except RiscvError Unit} {st' : State} {dev' : Dev} {tr : List DmiEvent}
    (h : write_progbuf i w st dev = some (r, st', dev', tr)) : st' = st := by
  unfold write_progbuf at h
  split at h
  · simp only [write_dm_register_untyped, dmiAccess, Option.some.injEq,
      Prod.mk.injEq] at h
    exact h.2.1.symm
  · simp only [rvErr, Option.some.injEq, Prod.mk.injEq] at h
    exact h.2.1.symm

/-- The program-buffer upload loop never changes the interface state. -/
theorem write_progbuf_list_state {data : List Nat} {i : Nat} {st : State}
    {dev : Dev} {r : Except RiscvError Unit} {st' : State} {dev' : Dev}
    {tr : List DmiEvent}
    (h : write_progbuf_list data i st dev = some (r, st', dev', tr)) : st' = st := by
  induction data generalizing i st dev r st' dev' tr with
  | nil =>
    simp only [write_progbuf_list, rvPure, Option.some.injEq, Prod.mk.injEq] at h
    exact h.2.1.symm
  | cons w rest ih =>
    unfold write_progbuf_list at h
    match hr : write_progbuf i w st dev with
    | none =>
      rw [hr] at h
      simp [andThen] at h
    | some (.error e, st1, dev1, tr1) =>
      rw [hr] at h
      simp only [andThen, Option.some.injEq, Prod.mk.injEq] at h
      exact h.2.1.symm.trans (write_progbuf_state hr)
    | some (.ok a, st1, dev1, tr1) =>
      rw [hr] at h
      simp only [andThen] at h
      match hg : write_progbuf_list rest (i + 1) st1 dev1 with
      | none => rw [hg] at h; exact Option.noConfusion h
      | some (res2, st2, dev2, tr2) =>
        rw [hg] at h
        simp only [Option.some.injEq, Prod.mk.injEq] at h
        exact h.2.1.symm.trans ((ih hg).trans (write_progbuf_state hr))

/-- **C4 (amended).** If `setup_program_buffer` is called with `data` equal
to the first `len(data)` words of the program-buffer cache and the
program-buffer size check passes, it performs no DMI writes at all (not even
the trailing `ebreak`) and returns `Ok` with the cache (indeed the whole
state) unchanged; in particular the second of two consecutive calls with the
same program performs no DMI writes and returns `Ok` with the state of the
first call. -/
theorem C4_progbuf_cache_skip :
    (∀ (data : List Nat) (st : State) (dev : Dev),
      st.progbuf_cache.length = 16 →
      (if st.implicit_ebreak then data.length else data.length + 1) ≤
        st.progbuf_size →
      data = st.progbuf_cache.take data.length →
      setup_program_buffer data st dev = some (.ok (), st, dev, [])) ∧
    (∀ (data : List Nat) (st : State) (dev : Dev) (st' : State) (dev' : Dev)
       (tr : List DmiEvent),
      setup_program_buffer data st dev = some (.ok (), st', dev', tr) →
      ∀ dev2 : Dev,
        setup_program_buffer data st' dev2 = some (.ok (), st', dev2, [])) := by
  constructor
  · intro data st dev hlen hsize hcache
    have hdl : data.length ≤ 16 := by
      have := congrArg List.length hcache
      simp [List.length_take, hlen] at this
      omega
    rw [setup_program_buffer_eq, if_neg (by omega), if_neg (by omega),
      if_pos hcache]
  · intro data st dev st' dev' tr h dev2
    rw [setup_program_buffer_eq] at h
    by_cases hsize : st.progbuf_size <
        (if st.implicit_ebreak then data.length else data.length + 1)
    · rw [if_pos hsize] at h
      exact absurd h (by simp)
    · rw [if_neg hsize] at h
      by_cases hdl : 16 < data.length
      · rw [if_pos hdl] at h
        exact Option.noConfusion h
      · rw [if_neg hdl] at h
        by_cases hcache : data = st.progbuf_cache.take data.length
        · rw [if_pos hcache] at h
          simp only [Option.some.injEq, Prod.mk.injEq] at h
          obtain ⟨-, hst, -, -⟩ := h
          subst hst
          rw [setup_program_buffer_eq, if_neg hsize, if_neg hdl, if_pos hcache]
        · rw [if_neg hcache] at h
          obtain ⟨a, st1, dev1, tr1, tr2, h1, h2, -⟩ := andThen_eq_some_ok h
          have hst1 : st1 = st := write_progbuf_list_state h1
          obtain ⟨b, st3, dev3, tr3, tr4, h3, h4, -⟩ := andThen_eq_some_ok h2
          have hst3 : st3 = st1 := by
            split at h3
            · exact write_progbuf_state h3
            · simp only [rvPure, Option.some.injEq, Prod.mk.injEq] at h3
              exact h3.2.1.symm
          simp only [rvPure, Option.some.injEq, Prod.mk.injEq] at h4
          obtain ⟨-, hst', -, -⟩ := h4
          subst hst3 hst1
          rw [setup_program_buffer_eq, ← hst']
          dsimp only
          rw [if_neg hsize, if_neg hdl, if_pos (List.take_left data _).symm]

/-! ## C5 — per-register capability memoization -/

theorem write_dm_eq (a v : Nat) (st : State) (dev : Dev) :
    write_dm_register_untyped a v st dev =
      some (.ok (), st, dev.tail, [⟨.write, a, v⟩]) := rfl

theorem read_dm_eq (a : Nat) (st : State) (dev : Dev) :
    read_dm_register_untyped a st dev =
      some (.ok (dev.tail.headD 0 % 2 ^ 32), st, dev.tail.tail,
        [⟨.read, a, 0⟩, ⟨.noop, 0, 0⟩]) := rfl

theorem lookupA_updateA_self (m : List (Nat × Nat)) (k v : Nat) :
    lookupA (updateA m k v) k = some v := by
  induction m with
  | nil => simp [updateA, lookupA]
  | cons p rest ih =>
    obtain ⟨k', v'⟩ := p
    by_cases hk : k' = k
    · simp [updateA, lookupA, hk]
    · simp only [updateA, if_neg hk]
      simpa [lookupA, hk] using ih

theorem lookupA_updateA_ne (m : List (Nat × Nat)) {k q : Nat} (v : Nat)
    (hq : q ≠ k) : lookupA (updateA m k v) q = lookupA m q := by
  induction m with
  | nil => simp [updateA, lookupA, Ne.symm hq]
  | cons p rest ih =>
    obtain ⟨k', v'⟩ := p
    by_cases hk : k' = k
    · subst hk
      simp [updateA, lookupA, Ne.symm hq]
    · simp only [updateA, if_neg hk]
      by_cases hkq : k' = q
      · simp [lookupA, hkq]
      · simp only [lookupA, if_neg hkq]
        exact ih

/-- Narrowing a support mask can only lose capabilities. -/
theorem supportsBits_and_mask {s m o : Nat}
    (h : supportsBits (s &&& m) o = true) : supportsBits s o = true := by
  simp only [supportsBits, decide_eq_true_eq] at h ⊢
  apply Nat.eq_of_testBit_eq
  intro i
  have h' := congrArg (fun n => n.testBit i) h
  simp only [Nat.testBit_and] at h' ⊢
  cases hs : s.testBit i <;> cases hm : m.testBit i <;> cases ho : o.testBit i <;>
    simp_all

theorem supportsBits_unset_read (cur : Nat) :
    supportsBits (unsetBits cur SUPPORT_READ) SUPPORT_READ = false := by
  have hz : (cur &&& 254) &&& 1 = 0 := by
    rw [Nat.and_assoc]
    show cur &&& 0 = 0
    exact Nat.and_zero cur
  simp [supportsBits, unsetBits, SUPPORT_READ, hz]

theorem supportsBits_unset_write (cur : Nat) :
    supportsBits (unsetBits cur SUPPORT_WRITE) SUPPORT_WRITE = false := by
  have hz : (cur &&& 253) &&& 2 = 0 := by
    rw [Nat.and_assoc]
    show cur &&& 0 = 0
    exact Nat.and_zero cur
  simp [supportsBits, unsetBits, SUPPORT_WRITE, hz]

/-- After recording "unsupported", the same register/direction checks as
unsupported. -/
theorem check_after_unset (st : State) (r rw : Nat)
    (hrw : rw = SUPPORT_READ ∨ rw = SUPPORT_WRITE) :
    check_abstract_cmd_register_support
      (set_abstract_cmd_register_unsupported st r rw) r rw = false := by
  unfold check_abstract_cmd_register_support set_abstract_cmd_register_unsupported
  rw [lookupA_updateA_self]
  rcases hrw with rfl | rfl
  · exact supportsBits_unset_read _
  · exact supportsBits_unset_write _

/-- Recording "unsupported" never adds capabilities for any register. -/
theorem check_set_mono (st : State) (r rw q rw' : Nat)
    (h : check_abstract_cmd_register_support
        (set_abstract_cmd_register_unsupported st r rw) q rw' = true) :
    check_abstract_cmd_register_support st q rw' = true := by
  unfold check_abstract_cmd_register_support at h ⊢
  unfold set_abstract_cmd_register_unsupported at h
  by_cases hq : q = r
  · subst hq
    rw [lookupA_updateA_self] at h
    match hl : lookupA st.abstract_cmd_register_info q with
    | none => rfl
    | some s =>
      rw [hl] at h
      have h2 : supportsBits (s &&& (255 ^^^ rw)) rw' = true := h
      exact supportsBits_and_mask h2
  · rw [lookupA_updateA_ne _ _ hq] at h
    exact h

theorem execPoll_state {fuel : Nat} {st : State} {dev : Dev}
    {r : Except RiscvError Nat} {st' : State} {dev' : Dev} {tr : List DmiEvent}
    (h : execPoll fuel st dev = some (r, st', dev', tr)) : st' = st := by
  induction fuel generalizing st dev r st' dev' tr with
  | zero =>
    simp only [execPoll, rvErr, Option.some.injEq, Prod.mk.injEq] at h
    exact h.2.1.symm
  | succ fuel ih =>
    simp only [execPoll, andThen, read_dm_eq] at h
    split at h
    · exact Option.noConfusion h
    · next res2 st2 dev2 tr2 heq =>
      simp only [Option.some.injEq, Prod.mk.injEq] at h
      obtain ⟨-, hst, -, -⟩ := h
      split at heq
      · exact hst.symm.trans (ih heq)
      · simp only [rvPure, Option.some.injEq, Prod.mk.injEq] at heq
        exact hst.symm.trans heq.2.1.symm

theorem checkCmderr_state {a : Nat} {st : State} {dev : Dev}
    {r : Except RiscvError Unit} {st' : State} {dev' : Dev} {tr : List DmiEvent}
    (h : checkCmderr a st dev = some (r, st', dev', tr)) : st' = st := by
  unfold checkCmderr at h
  split at h
  · split at h
    · simp only [rvErr, Option.some.injEq, Prod.mk.injEq] at h
      exact h.2.1.symm
    · exact Option.noConfusion h
  · simp only [rvPure, Option.some.injEq, Prod.mk.injEq] at h
    exact h.2.1.symm

/-- The general shape of a successful `andThen`. -/
theorem andThen_eq_some_cases {α β : Type} {r : RvResult α}
    {f : α → State → Dev → RvResult β} {res : Except RiscvError β} {st2 : State}
    {dev2 : Dev} {tr : List DmiEvent}
    (h : andThen r f = some (res, st2, dev2, tr)) :
    (∃ e, res = .error e ∧ r = some (.error e, st2, dev2, tr)) ∨
      ∃ a st1 dev1 tr1 tr2, r = some (.ok a, st1, dev1, tr1) ∧
        f a st1 dev1 = some (res, st2, dev2, tr2) ∧ tr = tr1 ++ tr2 := by
  match hr : r with
  | none => simp [andThen] at h
  | some (.error e, st1, dev1, tr1) =>
    simp only [andThen, Option.some.injEq, Prod.mk.injEq] at h
    obtain ⟨h1, h2, h3, h4⟩ := h
    exact Or.inl ⟨e, h1.symm, by rw [h2, h3, h4]⟩
  | some (.ok a, st1, dev1, tr1) =>
    simp only [andThen] at h
    match hf : f a st1 dev1 with
    | none => simp [hf] at h
    | some (res', st', dev', tr') =>
      rw [hf] at h
      simp only [Option.some.injEq, Prod.mk.injEq] at h
      obtain ⟨h1, h2, h3, h4⟩ := h
      exact Or.inr ⟨a, st1, dev1, tr1, tr', rfl,
        by rw [hf, h1, h2, h3], h4.symm⟩

theorem preserves_write_dm (a v : Nat) : Preserves (write_dm_register_untyped a v) := by
  intro st dev res st' dev' tr h
  rw [write_dm_eq] at h
  simp only [Option.some.injEq, Prod.mk.injEq] at h
  exact h.2.1.symm

theorem preserves_read_dm (a : Nat) : Preserves (read_dm_register_untyped a) := by
  intro st dev res st' dev' tr h
  rw [read_dm_eq] at h
  simp only [Option.some.injEq, Prod.mk.injEq] at h
  exact h.2.1.symm

theorem preserves_rvPure {α : Type} (x : α) : Preserves (rvPure x) := by
  intro st dev res st' dev' tr h
  simp only [rvPure, Option.some.injEq, Prod.mk.injEq] at h
  exact h.2.1.symm

theorem preserves_rvErr {α : Type} (e : RiscvError) :
    Preserves (rvErr e : State → Dev → RvResult α) := by
  intro st dev res st' dev' tr h
  simp only [rvErr, Option.some.injEq, Prod.mk.injEq] at h
  exact h.2.1.symm

theorem preserves_andThen {α β : Type} {g : State → Dev → RvResult α}
    {f : α → State → Dev → RvResult β} (hg : Preserves g)
    (hf : ∀ a, Preserves (f a)) :
    Preserves (fun st dev => andThen (g st dev) f) := by
  intro st dev res st' dev' tr h
  rcases andThen_eq_some_cases h with ⟨e, -, h1⟩ |
    ⟨a, st1, dev1, tr1, tr2, h1, h2, -⟩
  · exact hg st dev _ st' dev' tr h1
  · exact (hf a st1 dev1 _ st' dev' tr2 h2).trans (hg st dev _ st1 dev1 tr1 h1)

theorem preserves_ite {α : Type} {c : Prop} [Decidable c]
    {g g' : State → Dev → RvResult α} (hg : Preserves g) (hg' : Preserves g') :
    Preserves (fun st dev => if c then g st dev else g' st dev) := by
  intro st dev res st' dev' tr h
  have h' : (if c then g st dev else g' st dev) = some (res, st', dev', tr) := h
  by_cases hc : c
  · rw [if_pos hc] at h'
    exact hg st dev _ st' dev' tr h'
  · rw [if_neg hc] at h'
    exact hg' st dev _ st' dev' tr h'

theorem preserves_execPoll (fuel : Nat) : Preserves (execPoll fuel) :=
  fun _ _ _ _ _ _ h => execPoll_state h

theorem preserves_checkCmderr (a : Nat) : Preserves (checkCmderr a) :=
  fun _ _ _ _ _ _ h => checkCmderr_state h

/-- `execute_abstract_command` never changes the interface state. -/
theorem execute_abstract_command_state {c : Nat} {st : State} {dev : Dev}
    {r : Except RiscvError Unit} {st' : State} {dev' : Dev} {tr : List DmiEvent}
    (h : execute_abstract_command c st dev = some (r, st', dev', tr)) :
    st' = st := by
  have hp : Preserves (execute_abstract_command c) := by
    unfold execute_abstract_command
    refine preserves_andThen (preserves_write_dm _ _) fun _ => ?_
    refine preserves_andThen (preserves_read_dm _) fun a => ?_
    refine preserves_andThen
      (preserves_ite (preserves_write_dm _ _) (preserves_rvPure ())) fun _ => ?_
    refine preserves_andThen (preserves_write_dm _ _) fun _ => ?_
    exact preserves_andThen (preserves_execPoll _) preserves_checkCmderr
  exact hp st dev _ st' dev' tr h

/-- **C5.** Once `abstract_cmd_register_read(r)` has observed a
`NotSupported` outcome, the resulting capability map marks `r` as
read-unsupported, and every subsequent `abstract_cmd_register_read(r)` on
that state returns `AbstractCommand(NotSupported)` without issuing any DMI
access and without changing the state (conjuncts 1–2; analogously for
`abstract_cmd_register_write`, conjuncts 4–5); and the per-register support
map is only ever narrowed by these operations — a capability present after
the call was already present before it (conjuncts 3 and 6). -/
theorem C5_capability_memoization :
    (∀ (r : Nat) (st : State) (dev : Dev),
      check_abstract_cmd_register_support st r SUPPORT_READ = false →
      abstract_cmd_register_read r st dev =
        some (.error (.AbstractCommand .NotSupported), st, dev, [])) ∧
    (∀ (r : Nat) (st : State) (dev : Dev) (st' : State) (dev' : Dev)
       (tr : List DmiEvent),
      abstract_cmd_register_read r st dev =
        some (.error (.AbstractCommand .NotSupported), st', dev', tr) →
      check_abstract_cmd_register_support st' r SUPPORT_READ = false ∧
      ∀ dev2 : Dev, abstract_cmd_register_read r st' dev2 =
        some (.error (.AbstractCommand .NotSupported), st', dev2, [])) ∧
    (∀ (r : Nat) (st : State) (dev : Dev) (res : Except RiscvError Nat)
       (st' : State) (dev' : Dev) (tr : List DmiEvent) (q rw : Nat),
      abstract_cmd_register_read r st dev = some (res, st', dev', tr) →
      check_abstract_cmd_register_support st' q rw = true →
      check_abstract_cmd_register_support st q rw = true) ∧
    (∀ (r value : Nat) (st : State) (dev : Dev),
      check_abstract_cmd_register_support st r SUPPORT_WRITE = false →
      abstract_cmd_register_write r value st dev =
        some (.error (.AbstractCommand .NotSupported), st, dev, [])) ∧
    (∀ (r value : Nat) (st : State) (dev : Dev) (st' : State) (dev' : Dev)
       (tr : List DmiEvent),
      abstract_cmd_register_write r value st dev =
        some (.error (.AbstractCommand .NotSupported), st', dev', tr) →
      check_abstract_cmd_register_support st' r SUPPORT_WRITE = false ∧
      ∀ dev2 : Dev, abstract_cmd_register_write r value st' dev2 =
        some (.error (.AbstractCommand .NotSupported), st', dev2, [])) ∧
    (∀ (r value : Nat) (st : State) (dev : Dev) (res : Except RiscvError Unit)
       (st' : State) (dev' : Dev) (tr : List DmiEvent) (q rw : Nat),
      abstract_cmd_register_write r value st dev = some (res, st', dev', tr) →
      check_abstract_cmd_register_support st' q rw = true →
      check_abstract_cmd_register_support st q rw = true) := by
  have hshortr : ∀ (r : Nat) (st : State) (dev : Dev),
      check_abstract_cmd_register_support st r SUPPORT_READ = false →
      abstract_cmd_register_read r st dev =
        some (.error (.AbstractCommand .NotSupported), st, dev, []) := by
    intro r st dev h
    unfold abstract_cmd_register_read
    rw [if_pos (by simp [h])]
    rfl
  have hshortw : ∀ (r value : Nat) (st : State) (dev : Dev),
      check_abstract_cmd_register_support st r SUPPORT_WRITE = false →
      abstract_cmd_register_write r value st dev =
        some (.error (.AbstractCommand .NotSupported), st, dev, []) := by
    intro r value st dev h
    unfold abstract_cmd_register_write
    rw [if_pos (by simp [h])]
    rfl
  refine ⟨hshortr, ?_, ?_, hshortw, ?_, ?_⟩
  · intro r st dev st' dev' tr h
    unfold abstract_cmd_register_read at h
    split at h
    · next hcond =>
      simp only [rvErr, Option.some.injEq, Prod.mk.injEq] at h
      obtain ⟨-, hst, -, -⟩ := h
      subst hst
      have hc : check_abstract_cmd_register_support st r SUPPORT_READ = false := by
        simpa using hcond
      exact ⟨hc, fun dev2 => hshortr r st dev2 hc⟩
    · rcases hexec : execute_abstract_command (readRegCmd r) st dev with
        _ | ⟨res1, st1, dev1, tr1⟩
      · rw [hexec] at h
        simp [acrr_post] at h
      · rw [hexec] at h
        rcases res1 with e | a
        · simp only [acrr_post] at h
          by_cases he : e = RiscvError.AbstractCommand AbstractCommandErrorKind.NotSupported
          · rw [if_pos he] at h
            simp only [Option.some.injEq, Prod.mk.injEq] at h
            obtain ⟨-, hst, -, -⟩ := h
            subst hst
            have hc := check_after_unset st1 r SUPPORT_READ (Or.inl rfl)
            exact ⟨hc, fun dev2 => hshortr r _ dev2 hc⟩
          · rw [if_neg he] at h
            simp only [Option.some.injEq, Prod.mk.injEq, Except.error.injEq] at h
            exact absurd h.1 he
        · simp [acrr_post, andThen, read_dm_eq] at h
  · intro r st dev res st' dev' tr q rw h hq
    unfold abstract_cmd_register_read at h
    split at h
    · simp only [rvErr, Option.some.injEq, Prod.mk.injEq] at h
      obtain ⟨-, hst, -, -⟩ := h
      subst hst
      exact hq
    · rcases hexec : execute_abstract_command (readRegCmd r) st dev with
        _ | ⟨res1, st1, dev1, tr1⟩
      · rw [hexec] at h
        simp [acrr_post] at h
      · rw [hexec] at h
        have hst1 : st1 = st := execute_abstract_command_state hexec
        rcases res1 with e | a
        · simp only [acrr_post] at h
          by_cases he : e = RiscvError.AbstractCommand AbstractCommandErrorKind.NotSupported
          · rw [if_pos he] at h
            simp only [Option.some.injEq, Prod.mk.injEq] at h
            obtain ⟨-, hst, -, -⟩ := h
            subst hst hst1
            exact check_set_mono _ _ _ _ _ hq
          · rw [if_neg he] at h
            simp only [Option.some.injEq, Prod.mk.injEq] at h
            obtain ⟨-, hst, -, -⟩ := h
            subst hst hst1
            exact hq
        · simp only [acrr_post, andThen, read_dm_eq, Option.some.injEq,
            Prod.mk.injEq] at h
          obtain ⟨-, hst, -, -⟩ := h
          subst hst hst1
          exact hq
  · intro r value st dev st' dev' tr h
    unfold abstract_cmd_register_write at h
    split at h
    · next hcond =>
      simp only [rvErr, Option.some.injEq, Prod.mk.injEq] at h
      obtain ⟨-, hst, -, -⟩ := h
      subst hst
      have hc : check_abstract_cmd_register_support st r SUPPORT_WRITE = false := by
        simpa using hcond
      exact ⟨hc, fun dev2 => hshortw r value st dev2 hc⟩
    · rcases andThen_eq_some_cases h with ⟨e0, -, h1⟩ |
        ⟨a0, st1, dev1, tr1, tr2, h1, h2, -⟩
      · rw [write_dm_eq] at h1
        simp at h1
      · rw [write_dm_eq] at h1
        simp only [Option.some.injEq, Prod.mk.injEq] at h1
        obtain ⟨-, hst1, -, -⟩ := h1
        rcases hexec : execute_abstract_command (writeRegCmd r) st1 dev1 with
          _ | ⟨res1, st2, dev2, tr3⟩
        · rw [hexec] at h2
          simp [acrw_post] at h2
        · rw [hexec] at h2
          rcases res1 with e | a
          · simp only [acrw_post] at h2
            by_cases he : e = RiscvError.AbstractCommand AbstractCommandErrorKind.NotSupported
            · rw [if_pos he] at h2
              simp only [Option.some.injEq, Prod.mk.injEq] at h2
              obtain ⟨-, hst, -, -⟩ := h2
              subst hst
              have hc := check_after_unset st2 r SUPPORT_WRITE (Or.inr rfl)
              exact ⟨hc, fun dev3 => hshortw r value _ dev3 hc⟩
            · rw [if_neg he] at h2
              simp only [Option.some.injEq, Prod.mk.injEq, Except.error.injEq] at h2
              exact absurd h2.1 he
          · simp [acrw_post] at h2
  · intro r value st dev res st' dev' tr q rw h hq
    unfold abstract_cmd_register_write at h
    split at h
    · simp only [rvErr, Option.some.injEq, Prod.mk.injEq] at h
      obtain ⟨-, hst, -, -⟩ := h
      subst hst
      exact hq
    · rcases andThen_eq_some_cases h with ⟨e0, -, h1⟩ |
        ⟨a0, st1, dev1, tr1, tr2, h1, h2, -⟩
      · rw [write_dm_eq] at h1
        simp at h1
      · rw [write_dm_eq] at h1
        simp only [Option.some.injEq, Prod.mk.injEq] at h1
        obtain ⟨-, hst1, -, -⟩ := h1
        rcases hexec : execute_abstract_command (writeRegCmd r) st1 dev1 with
          _ | ⟨res1, st2, dev2, tr3⟩
        · rw [hexec] at h2
          simp [acrw_post] at h2
        · rw [hexec] at h2
          have hst2 : st2 = st1 := execute_abstract_command_state hexec
          rcases res1 with e | a
          · simp only [acrw_post] at h2
            by_cases he : e = RiscvError.AbstractCommand AbstractCommandErrorKind.NotSupported
            · rw [if_pos he] at h2
              simp only [Option.some.injEq, Prod.mk.injEq] at h2
              obtain ⟨-, hst, -, -⟩ := h2
              subst hst hst2
              subst hst1
              exact check_set_mono _ _ _ _ _ hq
            · rw [if_neg he] at h2
              simp only [Option.some.injEq, Prod.mk.injEq] at h2
              obtain ⟨-, hst, -, -⟩ := h2
              subst hst hst2
              subst hst1
              exact hq
          · simp only [acrw_post, Option.some.injEq, Prod.mk.injEq] at h2
            obtain ⟨-, hst, -, -⟩ := h2
            subst hst hst2
            subst hst1
            exact hq

/-- Witness for C5: after a concrete `NotSupported` outcome for `s0`, the
capability map marks it unsupported, the next call short-circuits with no
DMI traffic, and the narrowing never revokes an unrelated capability
(here: `s1` is still assumed readable/writable on the original state). -/
theorem C5_capability_memoization_witness :
    (check_abstract_cmd_register_support c5StateRead REG_S0 SUPPORT_READ = false ∧
      ∀ dev2 : Dev, abstract_cmd_register_read REG_S0 c5StateRead dev2 =
        some (.error (.AbstractCommand .NotSupported), c5StateRead, dev2, [])) ∧
    abstract_cmd_register_read REG_S0 c5StateRead [42] =
      some (.error (.AbstractCommand .NotSupported), c5StateRead, [42], []) ∧
    check_abstract_cmd_register_support State.new REG_S1 SUPPORT_READ = true ∧
    (check_abstract_cmd_register_support c5StateWrite REG_S0 SUPPORT_WRITE = false ∧
      ∀ dev2 : Dev, abstract_cmd_register_write REG_S0 0 c5StateWrite dev2 =
        some (.error (.AbstractCommand .NotSupported), c5StateWrite, dev2, [])) ∧
    abstract_cmd_register_write REG_S0 0 c5StateWrite [42] =
      some (.error (.AbstractCommand .NotSupported), c5StateWrite, [42], []) ∧
    check_abstract_cmd_register_support State.new REG_S1 SUPPORT_WRITE = true := by
  refine ⟨?_, ?_, ?_, ?_, ?_, ?_⟩
  · exact C5_capability_memoization.2.1 REG_S0 State.new c5DevNS c5StateRead []
      c5TraceRead (by decide)
  · exact C5_capability_memoization.1 REG_S0 c5StateRead [42] (by decide)
  · exact C5_capability_memoization.2.2.1 REG_S0 State.new c5DevNS
      (.error (.AbstractCommand .NotSupported)) c5StateRead [] c5TraceRead
      REG_S1 SUPPORT_READ (by decide) (by decide)
  · exact C5_capability_memoization.2.2.2.2.1 REG_S0 0 State.new c5DevNSW
      c5StateWrite [] c5TraceWrite (by decide)
  · exact C5_capability_memoization.2.2.2.1 REG_S0 0 c5StateWrite [42] (by decide)
  · exact C5_capability_memoization.2.2.2.2.2 REG_S0 0 State.new c5DevNSW
      (.error (.AbstractCommand .NotSupported)) c5StateWrite [] c5TraceWrite
      REG_S1 SUPPORT_WRITE (by decide) (by decide)

/-- Counterexample for C4 as stated: on the fresh interface state
(`progbuf_size = 0`, `implicit_ebreak = false`), the empty program equals the
first 0 words of the cache, yet the call returns
`Err(ProgramBufferTooSmall)`, not `Ok`. -/
theorem C4_progbuf_cache_skip_cex :
    ([] : List Nat) = State.new.progbuf_cache.take (0 : Nat) ∧
    valueOf? (setup_program_buffer [] State.new []) =
      some (.error .ProgramBufferTooSmall) := by
  exact ⟨by decide, by decide⟩

/-- Witness for C4: a cache-hit call on a 16-word buffer skips all writes;
and after a successful upload of `[1, 2]`, the identical second call issues
no DMI writes and preserves the state. -/
theorem C4_progbuf_cache_skip_witness :
    setup_program_buffer [0, 0] c4StateBefore [] =
      some (.ok (), c4StateBefore, [], []) ∧
    setup_program_buffer [1, 2] c4StateAfter [] =
      some (.ok (), c4StateAfter, [], []) := by
  constructor
  · exact C4_progbuf_cache_skip.1 [0, 0] c4StateBefore []
      (by decide) (by decide) (by decide)
  · exact C4_progbuf_cache_skip.2 [1, 2] c4StateBefore [] c4StateAfter []
      [⟨.write, 0x20, 1⟩, ⟨.write, 0x21, 2⟩, ⟨.write, 0x22, 0x00100073⟩]
      (by decide) []


/-! ## C7 — abstract command execution and cmderr decoding -/

/-- **C7.** `execute_abstract_command` clears a pre-existing nonzero
`cmderr` by a W1C write of `0x7` (register value `0x700`) before issuing the
command (conjunct 1: the first five DMI accesses are the `dmcontrol`
precondition write, the `abstractcs` read pair, the clear write, and the
`command` write — in that order); its final step `checkCmderr`, applied to
the `abstractcs` value observed once `busy` has cleared, returns `Ok` if and
only if `cmderr = 0` (conjuncts 2 and 5) and otherwise fails with
`AbstractCommand(kind)` where `kind = parse(cmderr)` (conjunct 3); `parse`
decodes `0=None, 1=Busy, 2=NotSupported, 3=Exception, 4=HaltResume, 5=Bus,
6=Reserved, 7=Other` (conjunct 4). -/
theorem C7_execute_abstract_command :
    (∀ (c : Nat) (st : State) (d0 d1 d2 : Nat) (rest : Dev),
      abstractcs.cmderr (d2 % 2 ^ 32) ≠ 0 →
      (traceOf (execute_abstract_command c st (d0 :: d1 :: d2 :: rest))).take 5 =
        [⟨.write, ADDR_DMCONTROL, dmcontrol.ABSTRACTCMD_PRECOND⟩,
         ⟨.read, ADDR_ABSTRACTCS, 0⟩, ⟨.noop, 0, 0⟩,
         ⟨.write, ADDR_ABSTRACTCS, abstractcs.CLEAR_CMDERR⟩,
         ⟨.write, ADDR_COMMAND, c⟩]) ∧
    (∀ (a : Nat) (st : State) (dev : Dev),
      checkCmderr a st dev = some (.ok (), st, dev, []) ↔
        abstractcs.cmderr a = 0) ∧
    (∀ (a : Nat) (st : State) (dev : Dev) (k : AbstractCommandErrorKind),
      abstractcs.cmderr a ≠ 0 →
      AbstractCommandErrorKind.parse (abstractcs.cmderr a) = some k →
      checkCmderr a st dev = some (.error (.AbstractCommand k), st, dev, [])) ∧
    (AbstractCommandErrorKind.parse 0 = some .None ∧
     AbstractCommandErrorKind.parse 1 = some .Busy ∧
     AbstractCommandErrorKind.parse 2 = some .NotSupported ∧
     AbstractCommandErrorKind.parse 3 = some .Exception ∧
     AbstractCommandErrorKind.parse 4 = some .HaltResume ∧
     AbstractCommandErrorKind.parse 5 = some .Bus ∧
     AbstractCommandErrorKind.parse 6 = some .Reserved ∧
     AbstractCommandErrorKind.parse 7 = some .Other) ∧
    (∀ (fuel : Nat) (st : State) (dev : Dev) (a : Nat) (st2 : State) (dev2 : Dev)
       (tr2 : List DmiEvent) (res : Except RiscvError Unit) (st' : State)
       (dev' : Dev) (tr : List DmiEvent),
      execPoll fuel st dev = some (.ok a, st2, dev2, tr2) →
      andThen (execPoll fuel st dev) checkCmderr = some (res, st', dev', tr) →
      (res = .ok () ↔ abstractcs.cmderr a = 0)) := by
  refine ⟨?_, ?_, ?_, ⟨rfl, rfl, rfl, rfl, rfl, rfl, rfl, rfl⟩, ?_⟩
  · intro c st d0 d1 d2 rest h
    unfold execute_abstract_command
    simp only [andThen, write_dm_eq, read_dm_eq, List.tail_cons, List.headD_cons]
    rw [if_pos (by simpa using h)]
    simp only [andThen, write_dm_eq, List.tail_cons]
    rcases hx : execPoll POLL_FUEL st rest.tail.tail with _ | ⟨res0, stx, devx, trx⟩
    · exact absurd hx (execPoll_ne_none _ _ _)
    · rcases res0 with e | a
      · simp [traceOf]
      · rcases hck : checkCmderr a stx devx with _ | ⟨res1, sty, devy, trY⟩
        · exact absurd hck (checkCmderr_ne_none _ _ _)
        · simp [hck, traceOf]
  · intro a st dev
    constructor
    · intro h
      by_contra hc
      unfold checkCmderr at h
      rw [if_pos hc] at h
      rcases hp : AbstractCommandErrorKind.parse (abstractcs.cmderr a) with _ | k
      · have := parse_isSome_of_lt_8 (cmderr_lt_8 a)
        rw [hp] at this
        simp at this
      · rw [hp] at h
        simp [rvErr] at h
    · intro h
      unfold checkCmderr
      rw [if_neg (by simp [h])]
      rfl
  · intro a st dev k h hp
    unfold checkCmderr
    rw [if_pos h, hp]
    rfl
  · intro fuel st dev a st2 dev2 tr2 res st' dev' tr hpoll h
    rw [hpoll] at h
    simp only [andThen] at h
    by_cases hc : abstractcs.cmderr a = 0
    · have hck : checkCmderr a st2 dev2 = some (.ok (), st2, dev2, []) := by
        unfold checkCmderr
        rw [if_neg (by simp [hc])]
        rfl
      rw [hck] at h
      simp only [Option.some.injEq, Prod.mk.injEq] at h
      obtain ⟨hres, -, -, -⟩ := h
      simp [← hres, hc]
    · rcases hp : AbstractCommandErrorKind.parse (abstractcs.cmderr a) with _ | k
      · have := parse_isSome_of_lt_8 (cmderr_lt_8 a)
        rw [hp] at this
        simp at this
      · have hck : checkCmderr a st2 dev2 =
            some (.error (.AbstractCommand k), st2, dev2, []) := by
          unfold checkCmderr
          rw [if_pos hc, hp]
          rfl
        rw [hck] at h
        simp only [Option.some.injEq, Prod.mk.injEq] at h
        obtain ⟨hres, -, -, -⟩ := h
        constructor
        · intro hok
          rw [← hres] at hok
          exact Except.noConfusion hok
        · intro h0
          exact absurd h0 hc

/-- Witness for C7: a pre-existing `cmderr = 1` forces the W1C clear before
the command write; a polled `abstractcs` of 0 yields `Ok`; a polled
`abstractcs` with `cmderr = 2` yields `AbstractCommand(NotSupported)`, and
the composed poll-and-check outcome is accordingly not `Ok`. -/
theorem C7_execute_abstract_command_witness :
    (abstractcs.cmderr (0x100 % 2 ^ 32) ≠ 0 ∧
      (traceOf (execute_abstract_command 5 State.new
          (0 :: 0 :: 0x100 :: [0, 0]))).take 5 =
        [⟨.write, ADDR_DMCONTROL, dmcontrol.ABSTRACTCMD_PRECOND⟩,
         ⟨.read, ADDR_ABSTRACTCS, 0⟩, ⟨.noop, 0, 0⟩,
         ⟨.write, ADDR_ABSTRACTCS, abstractcs.CLEAR_CMDERR⟩,
         ⟨.write, ADDR_COMMAND, 5⟩]) ∧
    checkCmderr 0 State.new [] = some (.ok (), State.new, [], []) ∧
    checkCmderr 0x200 State.new [] =
      some (.error (.AbstractCommand .NotSupported), State.new, [], []) ∧
    (((.error (.AbstractCommand .NotSupported) : Except RiscvError Unit) = .ok ()) ↔
      abstractcs.cmderr 0x200 = 0) := by
  refine ⟨⟨by decide,
    C7_execute_abstract_command.1 5 State.new 0 0 0x100 [0, 0] (by decide)⟩,
    ?_, ?_, ?_⟩
  · exact (C7_execute_abstract_command.2.1 0 State.new []).mpr (by decide)
  · exact C7_execute_abstract_command.2.2.1 0x200 State.new [] .NotSupported
      (by decide) (by decide)
  · exact C7_execute_abstract_command.2.2.2.2 POLL_FUEL State.new [0, 0x200]
      0x200 State.new [] [⟨.read, ADDR_ABSTRACTCS, 0⟩, ⟨.noop, 0, 0⟩]
      (.error (.AbstractCommand .NotSupported)) State.new []
      [⟨.read, ADDR_ABSTRACTCS, 0⟩, ⟨.noop, 0, 0⟩] (by decide) (by decide)

/-! ## C10 — empty-buffer multi-reads panic -/

/-- **C10.** A multi-element read with an empty buffer does not return
`Ok` or `Err` — it panics (modelled `none`): the system-bus path slices
`data[..data_len - 1]`, which underflows/overflows on an empty buffer, and
the program-buffer path does the same before indexing
`data[data.len() - 1]`; this holds through the `read_multiple` dispatch for
both access methods. -/
theorem C10_empty_read_panics :
    (∀ (w : RiscvBusAccess) (address : Nat) (st : State) (dev : Dev),
      perform_memory_read_multiple_sysbus w address 0 st dev = none) ∧
    perform_memory_read_multiple_progbuf .A32 0x20000000 0 c10ProgbufState
      (List.replicate 32 0) = none ∧
    (∀ (w : RiscvBusAccess) (address : Nat) (dev : Dev),
      read_multiple w address 0 c10SysbusState dev = none) ∧
    read_multiple .A32 0x20000000 0 c10ProgbufState (List.replicate 32 0) = none := by
  refine ⟨fun w a st dev => rfl, by decide, fun w a dev => rfl, by decide⟩

/-! ## C2 — scratch-register save/restore -/

/-- Every run of `execute_abstract_command` writes its command word to the
`command` register. -/
theorem execute_abstract_command_cmd_mem {c : Nat} {st : State} {dev : Dev}
    {r : Except RiscvError Unit} {st' : State} {dev' : Dev} {tr : List DmiEvent}
    (h : execute_abstract_command c st dev = some (r, st', dev', tr)) :
    (⟨.write, ADDR_COMMAND, c⟩ : DmiEvent) ∈ tr := by
  unfold execute_abstract_command at h
  rcases andThen_eq_some_cases h with ⟨e, -, h1⟩ |
    ⟨a1, st1, dev1, tr1, trA, h1, h2, rfl⟩
  · rw [write_dm_eq] at h1
    simp at h1
  · rcases andThen_eq_some_cases h2 with ⟨e, -, h3⟩ |
      ⟨a2, st2, dev2, tr2, trB, h3, h4, rfl⟩
    · rw [read_dm_eq] at h3
      simp at h3
    · rcases andThen_eq_some_cases h4 with ⟨e, -, h5⟩ |
        ⟨a3, st3, dev3, tr3, trC, h5, h6, rfl⟩
      · split at h5
        · rw [write_dm_eq] at h5
          simp at h5
        · simp [rvPure] at h5
      · rcases andThen_eq_some_cases h6 with ⟨e, -, h7⟩ |
          ⟨a4, st4, dev4, tr4, trD, h7, h8, rfl⟩
        · rw [write_dm_eq] at h7
          simp at h7
        · rw [write_dm_eq] at h7
          simp only [Option.some.injEq, Prod.mk.injEq] at h7
          obtain ⟨-, -, -, htr4⟩ := h7
          rw [← htr4]
          simp [List.mem_append]

/-- A successful `abstract_cmd_register_read` issues the register-read
command for its register. -/
theorem acrr_ok_mem {regno : Nat} {st : State} {dev : Dev} {v : Nat}
    {st' : State} {dev' : Dev} {tr : List DmiEvent}
    (h : abstract_cmd_register_read regno st dev = some (.ok v, st', dev', tr)) :
    saveCmdEvent regno ∈ tr := by
  simp only [saveCmdEvent]
  unfold abstract_cmd_register_read at h
  split at h
  · simp [rvErr] at h
  · rcases hexec : execute_abstract_command (readRegCmd regno) st dev with
      _ | ⟨res1, st1, dev1, tr1⟩
    · rw [hexec] at h
      simp [acrr_post] at h
    · rw [hexec] at h
      rcases res1 with e | a
      · simp only [acrr_post] at h
        split at h <;> simp_all
      · simp only [acrr_post, andThen, read_dm_eq, Option.some.injEq,
          Prod.mk.injEq] at h
        obtain ⟨-, -, -, htr⟩ := h
        rw [← htr]
        exact List.mem_append.mpr (Or.inl (execute_abstract_command_cmd_mem hexec))

/-- A successful `abstract_cmd_register_write` issues the register-write
command for its register. -/
theorem acrw_ok_mem {regno value : Nat} {st : State} {dev : Dev} {u : Unit}
    {st' : State} {dev' : Dev} {tr : List DmiEvent}
    (h : abstract_cmd_register_write regno value st dev =
      some (.ok u, st', dev', tr)) :
    restoreCmdEvent regno ∈ tr := by
  simp only [restoreCmdEvent]
  unfold abstract_cmd_register_write at h
  split at h
  · simp [rvErr] at h
  · rcases andThen_eq_some_cases h with ⟨e, -, h1⟩ |
      ⟨a1, st1, dev1, tr1, tr2, h1, h2, rfl⟩
    · rw [write_dm_eq] at h1
      simp at h1
    · rcases hexec : execute_abstract_command (writeRegCmd regno) st1 dev1 with
        _ | ⟨res1, st2, dev2, tr3⟩
      · rw [hexec] at h2
        simp [acrw_post] at h2
      · rw [hexec] at h2
        rcases res1 with e | a
        · simp only [acrw_post] at h2
          split at h2 <;> simp_all
        · simp only [acrw_post, Option.some.injEq, Prod.mk.injEq] at h2
          obtain ⟨-, -, -, htr⟩ := h2
          rw [← htr]
          exact List.mem_append.mpr (Or.inr (execute_abstract_command_cmd_mem hexec))

/-- **C2 (amended).** Every progbuf memory or CSR operation that uses the
scratch registers s0/s1 saves them on entry — its first step(s) are the
`abstract_cmd_register_read` of `s0` (and `s1`) — and, whenever it returns
`Ok`, restores the saved values: its DMI trace ends with the trace of the
complete successful `abstract_cmd_register_write` run(s) writing the very
values the saves returned back into `s0` (and then `s1`), finishing in the
operation's own final state and oracle.  On an `Err` exit the restore may be
skipped. -/
theorem C2_scratch_register_restore :
    (∀ (w : RiscvBusAccess) (address : Nat) (st : State) (dev : Dev),
      isOk (perform_memory_read_progbuf w address st dev) = true →
      SavesRestoresS0 (perform_memory_read_progbuf w address st dev) st dev) ∧
    (∀ (w : RiscvBusAccess) (address count : Nat) (st : State) (dev : Dev),
      isOk (perform_memory_read_multiple_progbuf w address count st dev) = true →
      SavesRestoresS0S1 (perform_memory_read_multiple_progbuf w address count st dev)
        st dev) ∧
    (∀ (w : RiscvBusAccess) (address data : Nat) (st : State) (dev : Dev),
      isOk (perform_memory_write_progbuf w address data st dev) = true →
      SavesRestoresS0S1 (perform_memory_write_progbuf w address data st dev)
        st dev) ∧
    (∀ (w : RiscvBusAccess) (address : Nat) (data : List Nat) (st : State)
       (dev : Dev),
      isOk (perform_memory_write_multiple_progbuf w address data st dev) = true →
      SavesRestoresS0S1 (perform_memory_write_multiple_progbuf w address data st dev)
        st dev) ∧
    (∀ (address : Nat) (st : State) (dev : Dev),
      isOk (read_csr_progbuf address st dev) = true →
      SavesRestoresS0 (read_csr_progbuf address st dev) st dev) ∧
    (∀ (address value : Nat) (st : State) (dev : Dev),
      isOk (write_csr_progbuf address value st dev) = true →
      SavesRestoresS0 (write_csr_progbuf address value st dev) st dev) := by
  refine ⟨?_, ?_, ?_, ?_, ?_, ?_⟩
  · intro w address st dev h
    rw [isOk_iff] at h
    obtain ⟨v, st', dev', tr, heq⟩ := h
    rw [heq]
    unfold perform_memory_read_progbuf at heq
    obtain ⟨s0, st1, dev1, t1, r1, hs1, hc1, rfl⟩ := andThen_eq_some_ok heq
    obtain ⟨u2, st2, dev2, t2, r2, hs2, hc2, rfl⟩ := andThen_eq_some_ok hc1
    obtain ⟨u3, st3, dev3, t3, r3, hs3, hc3, rfl⟩ := andThen_eq_some_ok hc2
    obtain ⟨u4, st4, dev4, t4, r4, hs4, hc4, rfl⟩ := andThen_eq_some_ok hc3
    obtain ⟨a5, st5, dev5, t5, r5, hs5, hc5, rfl⟩ := andThen_eq_some_ok hc4
    obtain ⟨u6, st6, dev6, t6, r6, hs6, hc6, rfl⟩ := andThen_eq_some_ok hc5
    obtain ⟨v7, st7, dev7, t7, r7, hs7, hc7, rfl⟩ := andThen_eq_some_ok hc6
    obtain ⟨u8, st8, dev8, t8, r8, hs8, hc8, rfl⟩ := andThen_eq_some_ok hc7
    simp only [rvPure, Option.some.injEq, Prod.mk.injEq] at hc8
    obtain ⟨-, hA, hB, hC⟩ := hc8
    subst hA
    subst hB
    subst hC
    exact ⟨s0, st1, dev1, t1, t2 ++ (t3 ++ (t4 ++ (t5 ++ (t6 ++ t7)))), st7, dev7,
      st8, dev8, t8, hs1, hs8, by simp [traceOf, List.append_assoc], rfl, rfl⟩
  · intro w address count st dev h
    rw [isOk_iff] at h
    obtain ⟨v, st', dev', tr, heq⟩ := h
    rw [heq]
    unfold perform_memory_read_multiple_progbuf at heq
    obtain ⟨s0, st1, dev1, t1, r1, hs1, hc1, rfl⟩ := andThen_eq_some_ok heq
    obtain ⟨s1, st2, dev2, t2, r2, hs2, hc2, rfl⟩ := andThen_eq_some_ok hc1
    obtain ⟨u3, st3, dev3, t3, r3, hs3, hc3, rfl⟩ := andThen_eq_some_ok hc2
    obtain ⟨u4, st4, dev4, t4, r4, hs4, hc4, rfl⟩ := andThen_eq_some_ok hc3
    obtain ⟨u5, st5, dev5, t5, r5, hs5, hc5, rfl⟩ := andThen_eq_some_ok hc4
    rcases count with _ | n
    · simp at hc5
    · obtain ⟨vs, st6, dev6, t6, r6, hs6, hc6, rfl⟩ := andThen_eq_some_ok hc5
      obtain ⟨lv, st7, dev7, t7, r7, hs7, hc7, rfl⟩ := andThen_eq_some_ok hc6
      obtain ⟨a8, st8, dev8, t8, r8, hs8, hc8, rfl⟩ := andThen_eq_some_ok hc7
      obtain ⟨u9, st9, dev9, t9, r9, hs9, hc9, rfl⟩ := andThen_eq_some_ok hc8
      obtain ⟨uA, stA, devA, tA, rA, hsA, hcA, rfl⟩ := andThen_eq_some_ok hc9
      obtain ⟨uB, stB, devB, tB, rB, hsB, hcB, rfl⟩ := andThen_eq_some_ok hcA
      simp only [rvPure, Option.some.injEq, Prod.mk.injEq] at hcB
      obtain ⟨-, hA, hB, hC⟩ := hcB
      subst hA
      subst hB
      subst hC
      exact ⟨s0, s1, st1, dev1, t1, st2, dev2, t2,
        t3 ++ (t4 ++ (t5 ++ (t6 ++ (t7 ++ (t8 ++ t9))))), st9, dev9, stA, devA, tA,
        stB, devB, tB, hs1, hs2, hsA, hsB,
        by simp [traceOf, List.append_assoc], rfl, rfl⟩
  · intro w address data st dev h
    rw [isOk_iff] at h
    obtain ⟨v, st', dev', tr, heq⟩ := h
    rw [heq]
    unfold perform_memory_write_progbuf at heq
    obtain ⟨s0, st1, dev1, t1, r1, hs1, hc1, rfl⟩ := andThen_eq_some_ok heq
    obtain ⟨s1, st2, dev2, t2, r2, hs2, hc2, rfl⟩ := andThen_eq_some_ok hc1
    obtain ⟨u3, st3, dev3, t3, r3, hs3, hc3, rfl⟩ := andThen_eq_some_ok hc2
    obtain ⟨u4, st4, dev4, t4, r4, hs4, hc4, rfl⟩ := andThen_eq_some_ok hc3
    obtain ⟨u5, st5, dev5, t5, r5, hs5, hc5, rfl⟩ := andThen_eq_some_ok hc4
    obtain ⟨u6, st6, dev6, t6, r6, hs6, hc6, rfl⟩ := andThen_eq_some_ok hc5
    obtain ⟨a7, st7, dev7, t7, r7, hs7, hc7, rfl⟩ := andThen_eq_some_ok hc6
    obtain ⟨u8, st8, dev8, t8, r8, hs8, hc8, rfl⟩ := andThen_eq_some_ok hc7
    obtain ⟨u9, st9, dev9, t9, r9, hs9, hc9, rfl⟩ := andThen_eq_some_ok hc8
    exact ⟨s0, s1, st1, dev1, t1, st2, dev2, t2,
      t3 ++ (t4 ++ (t5 ++ (t6 ++ (t7 ++ t8)))), st8, dev8, st9, dev9, t9,
      st', dev', r9, hs1, hs2, hs9, hc9,
      by simp [traceOf, List.append_assoc], rfl, rfl⟩
  · intro w address data st dev h
    rw [isOk_iff] at h
    obtain ⟨v, st', dev', tr, heq⟩ := h
    rw [heq]
    unfold perform_memory_write_multiple_progbuf at heq
    obtain ⟨s0, st1, dev1, t1, r1, hs1, hc1, rfl⟩ := andThen_eq_some_ok heq
    obtain ⟨s1, st2, dev2, t2, r2, hs2, hc2, rfl⟩ := andThen_eq_some_ok hc1
    obtain ⟨u3, st3, dev3, t3, r3, hs3, hc3, rfl⟩ := andThen_eq_some_ok hc2
    obtain ⟨u4, st4, dev4, t4, r4, hs4, hc4, rfl⟩ := andThen_eq_some_ok hc3
    obtain ⟨u5, st5, dev5, t5, r5, hs5, hc5, rfl⟩ := andThen_eq_some_ok hc4
    obtain ⟨a6, st6, dev6, t6, r6, hs6, hc6, rfl⟩ := andThen_eq_some_ok hc5
    obtain ⟨u7, st7, dev7, t7, r7, hs7, hc7, rfl⟩ := andThen_eq_some_ok hc6
    obtain ⟨u8, st8, dev8, t8, r8, hs8, hc8, rfl⟩ := andThen_eq_some_ok hc7
    exact ⟨s0, s1, st1, dev1, t1, st2, dev2, t2,
      t3 ++ (t4 ++ (t5 ++ (t6 ++ t7))), st7, dev7, st8, dev8, t8,
      st', dev', r8, hs1, hs2, hs8, hc8,
      by simp [traceOf, List.append_assoc], rfl, rfl⟩
  · intro address st dev h
    rw [isOk_iff] at h
    obtain ⟨v, st', dev', tr, heq⟩ := h
    rw [heq]
    unfold read_csr_progbuf at heq
    obtain ⟨s0, st1, dev1, t1, r1, hs1, hc1, rfl⟩ := andThen_eq_some_ok heq
    obtain ⟨u2, st2, dev2, t2, r2, hs2, hc2, rfl⟩ := andThen_eq_some_ok hc1
    obtain ⟨u3, st3, dev3, t3, r3, hs3, hc3, rfl⟩ := andThen_eq_some_ok hc2
    obtain ⟨v4, st4, dev4, t4, r4, hs4, hc4, rfl⟩ := andThen_eq_some_ok hc3
    obtain ⟨u5, st5, dev5, t5, r5, hs5, hc5, rfl⟩ := andThen_eq_some_ok hc4
    simp only [rvPure, Option.some.injEq, Prod.mk.injEq] at hc5
    obtain ⟨-, hA, hB, hC⟩ := hc5
    subst hA
    subst hB
    subst hC
    exact ⟨s0, st1, dev1, t1, t2 ++ (t3 ++ t4), st4, dev4, st5, dev5, t5,
      hs1, hs5, by simp [traceOf, List.append_assoc], rfl, rfl⟩
  · intro address value st dev h
    rw [isOk_iff] at h
    obtain ⟨v, st', dev', tr, heq⟩ := h
    rw [heq]
    unfold write_csr_progbuf at heq
    obtain ⟨s0, st1, dev1, t1, r1, hs1, hc1, rfl⟩ := andThen_eq_some_ok heq
    obtain ⟨u2, st2, dev2, t2, r2, hs2, hc2, rfl⟩ := andThen_eq_some_ok hc1
    obtain ⟨u3, st3, dev3, t3, r3, hs3, hc3, rfl⟩ := andThen_eq_some_ok hc2
    obtain ⟨u4, st4, dev4, t4, r4, hs4, hc4, rfl⟩ := andThen_eq_some_ok hc3
    exact ⟨s0, st1, dev1, t1, t2 ++ (t3 ++ t4), st4, dev4, st', dev', r4,
      hs1, hc4, by simp [traceOf, List.append_assoc], rfl, rfl⟩

/-- Counterexample for C2 as stated: when the post-execution `cmderr` check
fails, `perform_memory_read_progbuf` returns `Err` with s0 saved (the
register-read command was issued) but never restored — no register-write
command for s0 appears in the trace. -/
theorem C2_scratch_register_restore_cex :
    valueOf? (perform_memory_read_progbuf .A32 0x20000000 c2State c2Dev) =
      some (.error (.AbstractCommand .NotSupported)) ∧
    (traceOf (perform_memory_read_progbuf .A32 0x20000000 c2State c2Dev)).contains
      (saveCmdEvent REG_S0) = true ∧
    (traceOf (perform_memory_read_progbuf .A32 0x20000000 c2State c2Dev)).contains
      (restoreCmdEvent REG_S0) = false := by
  refine ⟨by decide, by decide, by decide⟩

/-- Witness for C2: on an all-zero oracle each of the six operations
completes `Ok`, and the amended theorem yields the save/restore structure of
each run — the trace ends with the register-write run(s) restoring the saved
values. -/
theorem C2_scratch_register_restore_witness :
    (isOk (perform_memory_read_progbuf .A32 0x1000 c2State c2Zeros) = true ∧
      SavesRestoresS0 (perform_memory_read_progbuf .A32 0x1000 c2State c2Zeros)
        c2State c2Zeros) ∧
    (isOk (perform_memory_read_multiple_progbuf .A32 0x1000 1 c2State c2Zeros) =
        true ∧
      SavesRestoresS0S1
        (perform_memory_read_multiple_progbuf .A32 0x1000 1 c2State c2Zeros)
        c2State c2Zeros) ∧
    (isOk (perform_memory_write_progbuf .A8 0x1000 0x42 c2State c2Zeros) = true ∧
      SavesRestoresS0S1 (perform_memory_write_progbuf .A8 0x1000 0x42 c2State c2Zeros)
        c2State c2Zeros) ∧
    (isOk (perform_memory_write_multiple_progbuf .A32 0x1000 [5] c2State
        c2Zeros) = true ∧
      SavesRestoresS0S1
        (perform_memory_write_multiple_progbuf .A32 0x1000 [5] c2State c2Zeros)
        c2State c2Zeros) ∧
    (isOk (read_csr_progbuf 0x301 c2State c2Zeros) = true ∧
      SavesRestoresS0 (read_csr_progbuf 0x301 c2State c2Zeros) c2State c2Zeros) ∧
    (isOk (write_csr_progbuf 0x301 7 c2State c2Zeros) = true ∧
      SavesRestoresS0 (write_csr_progbuf 0x301 7 c2State c2Zeros)
        c2State c2Zeros) := by
  refine ⟨⟨by decide, ?_⟩, ⟨by decide, ?_⟩, ⟨by decide, ?_⟩, ⟨by decide, ?_⟩,
    ⟨by decide, ?_⟩, ⟨by decide, ?_⟩⟩
  · exact C2_scratch_register_restore.1 .A32 0x1000 c2State c2Zeros (by decide)
  · exact C2_scratch_register_restore.2.1 .A32 0x1000 1 c2State c2Zeros (by decide)
  · exact C2_scratch_register_restore.2.2.1 .A8 0x1000 0x42 c2State c2Zeros
      (by decide)
  · exact C2_scratch_register_restore.2.2.2.1 .A32 0x1000 [5] c2State c2Zeros
      (by decide)
  · exact C2_scratch_register_restore.2.2.2.2.1 0x301 c2State c2Zeros (by decide)
  · exact C2_scratch_register_restore.2.2.2.2.2 0x301 7 c2State c2Zeros (by decide)

/-! ## C3 — attach invariants -/

theorem hart_loop_ok {fuel idx n : Nat} {st : State} {dev : Dev} {nh : Nat}
    {st' : State} {dev' : Dev} {tr : List DmiEvent}
    (h : hart_loop fuel idx n st dev = some (.ok nh, st', dev', tr)) :
    n ≤ nh ∧ st' = st := by
  induction fuel generalizing idx n st dev nh st' dev' tr with
  | zero =>
    simp only [hart_loop, rvPure, Option.some.injEq, Prod.mk.injEq,
      Except.ok.injEq] at h
    exact ⟨Nat.le_of_eq h.1, h.2.1.symm⟩
  | succ fuel ih =>
    simp only [hart_loop] at h
    rcases andThen_eq_some_cases h with ⟨e, he, -⟩ |
      ⟨a, s1, d1, t1, t2, h1, h2, -⟩
    · exact Except.noConfusion he
    · have hs1 : s1 = st := preserves_write_dm _ _ _ _ _ _ _ _ h1
      rcases andThen_eq_some_cases h2 with ⟨e, he, -⟩ |
        ⟨b, s2, d2, t3, t4, h3, h4, -⟩
      · exact Except.noConfusion he
      · have hs2 : s2 = s1 := preserves_read_dm _ _ _ _ _ _ _ h3
        replace h4 : (if dmstatus.anynonexistent b = true then rvPure n s2 d2
            else hart_loop fuel (idx + 1) (n + 1) s2 d2) =
            some (.ok nh, st', dev', t4) := h4
        by_cases hA : dmstatus.anynonexistent b = true
        · rw [if_pos hA] at h4
          simp only [rvPure, Option.some.injEq, Prod.mk.injEq,
            Except.ok.injEq] at h4
          exact ⟨Nat.le_of_eq h4.1, (h4.2.1.symm.trans hs2).trans hs1⟩
        · rw [if_neg hA] at h4
          obtain ⟨hle, hst⟩ := ih h4
          exact ⟨Nat.le_trans (Nat.le_succ n) hle, (hst.trans hs2).trans hs1⟩

theorem countOnesAux_le (fuel : Nat) : ∀ (k n : Nat), n < 2 ^ k →
    countOnesAux fuel n ≤ k := by
  induction fuel with
  | zero => intro k n _; simp [countOnesAux]
  | succ fuel ih =>
    intro k n h
    show (if n = 0 then 0 else n % 2 + countOnesAux fuel (n / 2)) ≤ k
    split
    · exact Nat.zero_le k
    · rename_i hn
      match k with
      | 0 => omega
      | k + 1 =>
        have hp : (2 : Nat) ^ (k + 1) = 2 ^ k * 2 := pow_succ 2 k
        have h2 : n / 2 < 2 ^ k := by omega
        have h3 := ih k (n / 2) h2
        omega

theorem hartsel_lt (v : Nat) : dmcontrol.hartsel v < 2 ^ 20 := by
  have h1 : (v >>> 6) % 2 ^ 10 < 2 ^ 10 := Nat.mod_lt _ (by norm_num)
  have h2 : (v >>> 16) % 2 ^ 10 < 2 ^ 10 := Nat.mod_lt _ (by norm_num)
  have e1 : field v 15 6 = (v >>> 6) % 2 ^ 10 := rfl
  have e2 : field v 25 16 = (v >>> 16) % 2 ^ 10 := rfl
  have h3 : field v 15 6 <<< 10 < 2 ^ 20 := by
    rw [Nat.shiftLeft_eq, e1]
    have h5 : (v >>> 6) % 2 ^ 10 ≤ 2 ^ 10 - 1 := by omega
    have h6 := Nat.mul_le_mul_right (2 ^ 10) h5
    have h7 : (2 ^ 10 - 1) * 2 ^ 10 < 2 ^ 20 := by norm_num
    omega
  have h8 : field v 25 16 < 2 ^ 20 := by
    rw [e2]
    exact lt_trans h2 (by norm_num)
  exact Nat.or_lt_two_pow h3 h8

theorem countOnes_hartsel_le (v : Nat) : countOnes (dmcontrol.hartsel v) ≤ 20 :=
  countOnesAux_le 32 20 _ (hartsel_lt v)

theorem progbufsize_le (v : Nat) : abstractcs.progbufsize v ≤ 31 := by
  have h : (v >>> 24) % 2 ^ 5 < 2 ^ 5 := Nat.mod_lt _ (by norm_num)
  have e : abstractcs.progbufsize v = (v >>> 24) % 2 ^ 5 := rfl
  omega

/-- The confstrptr aggregation step of `enter_debug_mode` (four reads, or a
pure `none` when `confstrptrvalid` is clear) leaves the interface state
unchanged. -/
theorem preserves_confstr_chain (status : Nat) :
    Preserves (fun st dev =>
      if dmstatus.confstrptrvalid status then
        andThen (read_dm_register_untyped 0x19 st dev) fun c0 st dev =>
        andThen (read_dm_register_untyped 0x1a st dev) fun c1 st dev =>
        andThen (read_dm_register_untyped 0x1b st dev) fun c2 st dev =>
        andThen (read_dm_register_untyped 0x1c st dev) fun c3 st dev =>
        rvPure (some (combine_confstrptr c0 c1 c2 c3)) st dev
      else rvPure none st dev) := by
  refine preserves_ite ?_ (preserves_rvPure _)
  refine preserves_andThen (preserves_read_dm _) fun c0 => ?_
  refine preserves_andThen (preserves_read_dm _) fun c1 => ?_
  refine preserves_andThen (preserves_read_dm _) fun c2 => ?_
  refine preserves_andThen (preserves_read_dm _) fun c3 => ?_
  exact preserves_rvPure _

/-- `applySbcs` only touches `memory_access_info`: the four fields constrained
by the attach invariants pass through unchanged. -/
theorem applySbcs_proj (st : State) (v : Nat) :
    (applySbcs st v).debug_version = st.debug_version ∧
    (applySbcs st v).num_harts = st.num_harts ∧
    (applySbcs st v).progbuf_size = st.progbuf_size ∧
    (applySbcs st v).hartsellen = st.hartsellen := by
  unfold applySbcs insertSystemBus
  by_cases h1 : sbcs.sbversion v = 1
  · rw [if_pos h1]
    by_cases h2 : sbcs.sbaccess8 v = true <;>
      by_cases h3 : sbcs.sbaccess16 v = true <;>
      by_cases h4 : sbcs.sbaccess32 v = true <;>
      by_cases h5 : sbcs.sbaccess64 v = true <;>
      by_cases h6 : sbcs.sbaccess128 v = true <;>
      simp [h2, h3, h4, h5, h6]
  · rw [if_neg h1]
    exact ⟨rfl, rfl, rfl, rfl⟩

/-- **C3.** Attach invariants, with the `progbuf_size` bound amended from 16
to 31: for every successful `enter_debug_mode` the resulting state has
`debug_version = Version0_13`, `num_harts ≥ 1`, `progbuf_size ≤ 31` (the raw
5-bit `abstractcs.progbufsize` field is stored without clamping, so values up
to 31 are reachable — see the counterexample) and `hartsellen ≤ 20`; and
whenever the version read from `dmstatus` is not 0.13, attach fails with
`UnsupportedDebugModuleVersion` carrying that version. -/
theorem C3_attach_invariants :
    (∀ (st : State) (dev : Dev) (st' : State) (dev' : Dev) (tr : List DmiEvent),
      enter_debug_mode st dev = some (.ok (), st', dev', tr) →
      st'.debug_version = DebugModuleVersion.Version0_13 ∧
        1 ≤ st'.num_harts ∧ st'.progbuf_size ≤ 31 ∧ st'.hartsellen ≤ 20) ∧
    (∀ (st : State) (d0 d1 : Nat) (rest : Dev),
      DebugModuleVersion.fromRaw (dmstatus.version (d1 % 2 ^ 32)) ≠
          DebugModuleVersion.Version0_13 →
      valueOf? (enter_debug_mode st (d0 :: d1 :: rest)) =
        some (.error (.UnsupportedDebugModuleVersion
          (DebugModuleVersion.fromRaw (dmstatus.version (d1 % 2 ^ 32)))))) := by
  constructor
  · intro st dev st' dev' tr h
    simp only [enter_debug_mode] at h
    obtain ⟨status, st1, dev1, t1, t2, h1, h2, -⟩ := andThen_eq_some_ok h
    split at h2
    · simp [rvErr] at h2
    · rename_i hne
      have hver : DebugModuleVersion.fromRaw (dmstatus.version status) =
          DebugModuleVersion.Version0_13 := of_not_not hne
      obtain ⟨cp, st2, dev2, t3, t4, h3, h4, -⟩ := andThen_eq_some_ok h2
      obtain rfl := preserves_confstr_chain status _ _ _ _ _ _ h3
      obtain ⟨u1, st3, dev3, t5, t6, h5, h6, -⟩ := andThen_eq_some_ok h4
      obtain rfl := preserves_write_dm _ _ _ _ _ _ _ _ h5
      obtain ⟨u2, st4, dev4, t7, t8, h7, h8, -⟩ := andThen_eq_some_ok h6
      obtain rfl := preserves_write_dm _ _ _ _ _ _ _ _ h7
      obtain ⟨control, st5, dev5, t9, t10, h9, h10, -⟩ := andThen_eq_some_ok h8
      obtain rfl := preserves_read_dm _ _ _ _ _ _ _ h9
      obtain ⟨nh, st6, dev6, t11, t12, h11, h12, -⟩ := andThen_eq_some_ok h10
      obtain ⟨hnh, rfl⟩ := hart_loop_ok h11
      obtain ⟨u3, st7, dev7, t13, t14, h13, h14, -⟩ := andThen_eq_some_ok h12
      obtain rfl := preserves_write_dm _ _ _ _ _ _ _ _ h13
      obtain ⟨acs, st8, dev8, t15, t16, h15, h16, -⟩ := andThen_eq_some_ok h14
      obtain rfl := preserves_read_dm _ _ _ _ _ _ _ h15
      obtain ⟨hi, st9, dev9, t17, t18, h17, h18, -⟩ := andThen_eq_some_ok h16
      obtain rfl := preserves_read_dm _ _ _ _ _ _ _ h17
      obtain ⟨u4, st10, dev10, t19, t20, h19, h20, -⟩ := andThen_eq_some_ok h18
      obtain rfl := preserves_write_dm _ _ _ _ _ _ _ _ h19
      obtain ⟨aaRb, st11, dev11, t21, t22, h21, h22, -⟩ := andThen_eq_some_ok h20
      obtain rfl := preserves_read_dm _ _ _ _ _ _ _ h21
      obtain ⟨u5, st12, dev12, t23, t24, h23, h24, -⟩ := andThen_eq_some_ok h22
      obtain rfl := preserves_write_dm _ _ _ _ _ _ _ _ h23
      obtain ⟨sb, st13, dev13, t25, t26, h25, h26, -⟩ := andThen_eq_some_ok h24
      obtain rfl := preserves_read_dm _ _ _ _ _ _ _ h25
      simp only [rvPure, Option.some.injEq, Prod.mk.injEq] at h26
      obtain ⟨-, h26a, -, -⟩ := h26
      subst h26a
      refine ⟨?_, ?_, ?_, ?_⟩
      · rw [(applySbcs_proj _ _).1]
        exact hver
      · rw [(applySbcs_proj _ _).2.1]
        exact hnh
      · rw [(applySbcs_proj _ _).2.2.1]
        exact progbufsize_le _
      · rw [(applySbcs_proj _ _).2.2.2]
        exact countOnes_hartsel_le _
  · intro st d0 d1 rest hne
    rw [enter_debug_mode, read_dm_eq]
    simp only [andThen, List.tail_cons, List.headD_cons]
    rw [if_pos hne]
    rfl

/-- **C3 witness.** A concrete successful attach (device oracle `c3DevW`)
satisfying all four invariants, and a concrete attach against a `dmstatus`
response with `version = 3` failing with `UnsupportedDebugModuleVersion`. -/
theorem C3_attach_invariants_witness :
    (((stateOf? (enter_debug_mode State.new c3DevW)).getD State.new).debug_version =
        DebugModuleVersion.Version0_13 ∧
      1 ≤ ((stateOf? (enter_debug_mode State.new c3DevW)).getD State.new).num_harts ∧
      ((stateOf? (enter_debug_mode State.new c3DevW)).getD State.new).progbuf_size ≤ 31 ∧
      ((stateOf? (enter_debug_mode State.new c3DevW)).getD State.new).hartsellen ≤ 20) ∧
    valueOf? (enter_debug_mode State.new [0, 3]) =
      some (.error (.UnsupportedDebugModuleVersion
        (DebugModuleVersion.fromRaw (dmstatus.version (3 % 2 ^ 32))))) :=
  ⟨C3_attach_invariants.1 State.new c3DevW
      ((stateOf? (enter_debug_mode State.new c3DevW)).getD State.new)
      (devOf (enter_debug_mode State.new c3DevW))
      (traceOf (enter_debug_mode State.new c3DevW)) (by decide),
    C3_attach_invariants.2 State.new 0 3 [] (by decide)⟩

/-- **C3 counterexample.** The spec bounds `progbuf_size` by 16, but the raw
5-bit `abstractcs.progbufsize` field is stored without clamping: an attach
whose `abstractcs` response is `0x11000000` (`progbufsize = 17`) succeeds and
leaves `progbuf_size = 17 > 16`. -/
theorem C3_attach_invariants_cex :
    isOk (enter_debug_mode State.new c3Dev) = true ∧
    (stateOf? (enter_debug_mode State.new c3Dev)).map State.progbuf_size =
      some 17 := by decide

end Riscv

